import Mathlib

/-!
Shallow embedding of the kdbus access-control / metadata subsystem
(src/endpoint.c, src/metadata.c, src/test/kdbus-util.h) and proofs about it.

Machine integers are modelled as `Nat` (sizes, masks) and `Int` (return
codes, which are 0 or negative errno values, with the single exception of
the positive `copy_from_user` remainder that `kdbus_meta_append_cmdline`
can return).  Buffers are byte lists.  The policy-database query functions
live in policy.c, which is not part of the excerpt; they are therefore
modelled as opaque oracle functions carried by the endpoint structure, and
theorems quantify over them.
-/

/-! ## Errno constants (from the kernel uapi headers; returned negated) -/

def EPERM : Int := 1

def ENOENT : Int := 2

def ENOMEM : Int := 12

def EOPNOTSUPP : Int := 95

/-! ## Alignment macros, from src/test/kdbus-util.h

`KDBUS_ALIGN8(l) = ((l + 7) & ~7)`, written here as truncating division
(identical on natural numbers). -/

def KDBUS_ALIGN8 (l : Nat) : Nat := (l + 7) / 8 * 8

/-- Modelled from the spec: `KDBUS_PART_HEADER_SIZE` comes from the missing
kdbus.h header; every item starts with a u64 size and a u64 type
("self-describing typed records", §6), so the header is 16 bytes. -/
def KDBUS_PART_HEADER_SIZE : Nat := 16

def KDBUS_ITEM_SIZE (s : Nat) : Nat := KDBUS_ALIGN8 (s + KDBUS_PART_HEADER_SIZE)

/-! ## Connections and the policy-engine model (src/endpoint.c)

A connection carries credentials, the privileged flag and the list of
currently owned names; names are byte strings (no interior NUL). -/

abbrev KName := List Nat

structure KCred where
  uid : Nat
  fsuid : Nat
  gid : Nat

structure KConn where
  cred : KCred
  privileged : Bool
  names_list : List KName

/-- Modelled from the spec: the policy-database query functions
(`kdbus_policy_check_see_access_unlocked`, `kdbus_policy_check_talk_access`,
`kdbus_policy_check_own_access`) are implemented in policy.c, which is not
part of the excerpt.  They are modelled as opaque result oracles; spec §4.1
says each answers allow (0) or deny. -/
structure PolicyDb where
  check_see : KCred → KName → Int
  check_talk : KConn → KConn → Int
  check_own : KCred → KName → Int

/-- An endpoint as far as the policy engine reads it: the `has_policy` flag
(set iff the endpoint is custom), its own policy database, and the bus-wide
default database reachable as `ep->bus->policy_db`. -/
structure KEp where
  has_policy : Bool
  policy_db : PolicyDb
  bus_policy_db : PolicyDb

/-- src/endpoint.c `kdbus_ep_policy_check_see_access_unlocked`. -/
def kdbus_ep_policy_check_see_access_unlocked (ep : KEp) (conn : KConn)
    (name : KName) : Int :=
  if !ep.has_policy then 0
  else
    let ret := ep.policy_db.check_see conn.cred name
    -- don't leak hints whether a name exists on a custom endpoint
    if ret = -EPERM then -ENOENT else ret

/-- src/endpoint.c `kdbus_ep_policy_check_see_access`: the locked wrapper;
locking has no observable effect in this sequential model. -/
def kdbus_ep_policy_check_see_access (ep : KEp) (conn : KConn)
    (name : KName) : Int :=
  kdbus_ep_policy_check_see_access_unlocked ep conn name

/-- The `list_for_each_entry` loop body of `kdbus_ep_policy_check_src_names`:
`ret` starts at `-ENOENT`, is overwritten by each SEE check, and the loop
breaks on the first 0. -/
def kdbus_ep_src_names_loop (ep : KEp) (conn_dst : KConn) :
    List KName → Int → Int
  | [], ret => ret
  | n :: rest, _ =>
    let r := kdbus_ep_policy_check_see_access_unlocked ep conn_dst n
    if r = 0 then 0 else kdbus_ep_src_names_loop ep conn_dst rest r

/-- src/endpoint.c `kdbus_ep_policy_check_src_names`. -/
def kdbus_ep_policy_check_src_names (ep : KEp) (conn_src conn_dst : KConn) :
    Int :=
  if !ep.has_policy then 0
  else kdbus_ep_src_names_loop ep conn_dst conn_src.names_list (-ENOENT)

/-- The shared tail of `kdbus_ep_policy_check_talk_access`: the implicit
policies (privileged source, fsuid = destination uid) and the fallback to
the bus-wide default policy database. -/
def kdbus_ep_talk_tail (ep : KEp) (conn_src conn_dst : KConn) : Int :=
  if conn_src.privileged then 0
  else if conn_src.cred.fsuid = conn_dst.cred.uid then 0
  else ep.bus_policy_db.check_talk conn_src conn_dst

/-- src/endpoint.c `kdbus_ep_policy_check_talk_access`. -/
def kdbus_ep_policy_check_talk_access (ep : KEp) (conn_src conn_dst : KConn) :
    Int :=
  if ep.has_policy then
    let ret := ep.policy_db.check_talk conn_src conn_dst
    -- don't leak hints whether a name exists on a custom ep
    let ret := if ret = -EPERM then -ENOENT else ret
    if ret < 0 then ret
    else kdbus_ep_talk_tail ep conn_src conn_dst
  else kdbus_ep_talk_tail ep conn_src conn_dst

/-- The shared tail of `kdbus_ep_policy_check_own_access`: privileged
connections pass, everyone else falls back to the bus-wide default. -/
def kdbus_ep_own_tail (ep : KEp) (conn : KConn) (name : KName) : Int :=
  if conn.privileged then 0
  else ep.bus_policy_db.check_own conn.cred name

/-- src/endpoint.c `kdbus_ep_policy_check_own_access`. -/
def kdbus_ep_policy_check_own_access (ep : KEp) (conn : KConn)
    (name : KName) : Int :=
  if ep.has_policy then
    let ret := ep.policy_db.check_own conn.cred name
    if ret < 0 then ret
    else kdbus_ep_own_tail ep conn name
  else kdbus_ep_own_tail ep conn name

/-! Concrete instances used by counterexamples and witnesses. -/

def kdbus_allow_db : PolicyDb :=
  { check_see := fun _ _ => 0
    check_talk := fun _ _ => 0
    check_own := fun _ _ => 0 }

def kdbus_deny_db : PolicyDb :=
  { check_see := fun _ _ => -EPERM
    check_talk := fun _ _ => -EPERM
    check_own := fun _ _ => -EPERM }

def kdbus_cred0 : KCred := { uid := 1000, fsuid := 1000, gid := 1000 }

def kdbus_conn_priv : KConn :=
  { cred := kdbus_cred0, privileged := true, names_list := [] }

def kdbus_conn_plain : KConn :=
  { cred := { uid := 2000, fsuid := 2000, gid := 2000 }
    privileged := false, names_list := [] }

def kdbus_ep_custom_deny : KEp :=
  { has_policy := true, policy_db := kdbus_deny_db,
    bus_policy_db := kdbus_allow_db }

def kdbus_ep_default : KEp :=
  { has_policy := false, policy_db := kdbus_deny_db,
    bus_policy_db := kdbus_allow_db }

/-! ## Claim theorems: policy engine -/

/-- C1 counterexample: a custom endpoint whose policy denies talk, and a
privileged source.  The claim says `check_talk_access` still returns
success (0); in the code the custom-policy deny is remapped to `-ENOENT`
and returned before the privileged shortcut is ever evaluated, so the call
denies. -/
theorem C1_counterexample :
    kdbus_ep_policy_check_talk_access kdbus_ep_custom_deny kdbus_conn_priv
      kdbus_conn_plain = -ENOENT ∧
    kdbus_ep_policy_check_talk_access kdbus_ep_custom_deny kdbus_conn_priv
      kdbus_conn_plain ≠ 0 := by
  constructor <;> decide

/-- C1 (amended): if a custom endpoint's policy denies talk from src to dst,
then `check_talk_access` denies with `-ENOENT` even when src is privileged;
privilege only short-circuits the bus-wide fallback after the custom policy
has allowed (or when there is none). -/
theorem C1_talk_custom_deny_beats_privilege (ep : KEp) (src dst : KConn)
    (hpol : ep.has_policy = true) (_hpriv : src.privileged = true)
    (hdeny : ep.policy_db.check_talk src dst = -EPERM) :
    kdbus_ep_policy_check_talk_access ep src dst = -ENOENT := by
  simp [kdbus_ep_policy_check_talk_access, hpol, hdeny, ENOENT, EPERM]

theorem C1_talk_custom_deny_beats_privilege_witness :
    kdbus_ep_policy_check_talk_access kdbus_ep_custom_deny kdbus_conn_priv
      kdbus_conn_plain = -ENOENT :=
  C1_talk_custom_deny_beats_privilege kdbus_ep_custom_deny kdbus_conn_priv
    kdbus_conn_plain rfl rfl rfl

/-- C3: on a custom endpoint, a talk deny (`-EPERM`) from the endpoint's own
policy database is remapped to `-ENOENT` and returned immediately: the
result is the constant `-ENOENT` for every source (any privileged flag, any
fsuid), every destination and every bus-wide default database, so neither
the implicit shortcuts nor the bus-wide fallback can influence it. -/
theorem C3_talk_custom_deny_remapped (ep : KEp) (src dst : KConn)
    (hpol : ep.has_policy = true)
    (hdeny : ep.policy_db.check_talk src dst = -EPERM) :
    kdbus_ep_policy_check_talk_access ep src dst = -ENOENT := by
  simp [kdbus_ep_policy_check_talk_access, hpol, hdeny, ENOENT, EPERM]

theorem C3_talk_custom_deny_remapped_witness :
    kdbus_ep_policy_check_talk_access kdbus_ep_custom_deny kdbus_conn_plain
      kdbus_conn_priv = -ENOENT :=
  C3_talk_custom_deny_remapped kdbus_ep_custom_deny kdbus_conn_plain
    kdbus_conn_priv rfl rfl

/-- C4: `check_see_access` on a default endpoint always allows; on a custom
endpoint a policy deny (`-EPERM`) is surfaced as `-ENOENT`; and the result
is never `-EPERM`, whatever the policy database answers, so a caller cannot
distinguish a policy-hidden name from a nonexistent one. -/
theorem C4_see_deny_is_not_found (ep : KEp) (conn : KConn) (name : KName) :
    (ep.has_policy = false →
      kdbus_ep_policy_check_see_access_unlocked ep conn name = 0) ∧
    (ep.has_policy = true →
      ep.policy_db.check_see conn.cred name = -EPERM →
      kdbus_ep_policy_check_see_access_unlocked ep conn name = -ENOENT) ∧
    kdbus_ep_policy_check_see_access_unlocked ep conn name ≠ -EPERM := by
  refine ⟨fun h => by simp [kdbus_ep_policy_check_see_access_unlocked, h],
    fun h hd => by
      simp [kdbus_ep_policy_check_see_access_unlocked, h, hd],
    ?_⟩
  unfold kdbus_ep_policy_check_see_access_unlocked
  by_cases h : ep.has_policy
  · by_cases hd : ep.policy_db.check_see conn.cred name = -EPERM
    · simp [h, hd, ENOENT, EPERM]
    · simp only [EPERM] at hd
      simp [h, hd, EPERM]
  · simp [h, EPERM]

theorem C4_see_deny_is_not_found_witness :
    kdbus_ep_policy_check_see_access_unlocked kdbus_ep_default
        kdbus_conn_plain [1] = 0 ∧
    kdbus_ep_policy_check_see_access_unlocked kdbus_ep_custom_deny
        kdbus_conn_plain [1] = -ENOENT :=
  ⟨(C4_see_deny_is_not_found kdbus_ep_default kdbus_conn_plain [1]).1 rfl,
   (C4_see_deny_is_not_found kdbus_ep_custom_deny kdbus_conn_plain [1]).2.1
     rfl rfl⟩

/-- C9: on a custom endpoint, a source connection owning zero names is
denied by `check_src_names` with `-ENOENT` for every destination; on a
default endpoint the check always returns success. -/
theorem C9_src_names_zero_names (ep : KEp) (src dst : KConn) :
    (ep.has_policy = true → src.names_list = [] →
      kdbus_ep_policy_check_src_names ep src dst = -ENOENT) ∧
    (ep.has_policy = false →
      kdbus_ep_policy_check_src_names ep src dst = 0) := by
  constructor
  · intro h hn
    simp [kdbus_ep_policy_check_src_names, h, hn, kdbus_ep_src_names_loop]
  · intro h
    simp [kdbus_ep_policy_check_src_names, h]

theorem C9_src_names_zero_names_witness :
    kdbus_ep_policy_check_src_names kdbus_ep_custom_deny kdbus_conn_plain
        kdbus_conn_priv = -ENOENT ∧
    kdbus_ep_policy_check_src_names kdbus_ep_default kdbus_conn_plain
        kdbus_conn_priv = 0 :=
  ⟨(C9_src_names_zero_names kdbus_ep_custom_deny kdbus_conn_plain
      kdbus_conn_priv).1 rfl rfl,
   (C9_src_names_zero_names kdbus_ep_default kdbus_conn_plain
      kdbus_conn_priv).2 rfl⟩

/-- C10: in `check_own_access`, (a) an endpoint-policy deny is returned
unchanged (no `-ENOENT` remapping); (b) when the endpoint policy allows (or
the endpoint has none), a non-privileged connection gets exactly the
bus-wide default database's OWN answer, so an endpoint-policy allow is
never sufficient by itself; (c) in the same situation a privileged
connection passes with 0 regardless of the bus-wide database. -/
theorem C10_own_layering (ep : KEp) (conn : KConn) (name : KName) :
    (ep.has_policy = true → ep.policy_db.check_own conn.cred name < 0 →
      kdbus_ep_policy_check_own_access ep conn name =
        ep.policy_db.check_own conn.cred name) ∧
    (conn.privileged = false →
      (ep.has_policy = false ∨ ep.policy_db.check_own conn.cred name = 0) →
      kdbus_ep_policy_check_own_access ep conn name =
        ep.bus_policy_db.check_own conn.cred name) ∧
    (conn.privileged = true →
      (ep.has_policy = false ∨ ep.policy_db.check_own conn.cred name = 0) →
      kdbus_ep_policy_check_own_access ep conn name = 0) := by
  refine ⟨fun h hlt => by simp [kdbus_ep_policy_check_own_access, h, hlt],
    fun hp hc => ?_, fun hp hc => ?_⟩ <;>
    rcases hc with hc | hc <;>
      simp [kdbus_ep_policy_check_own_access, kdbus_ep_own_tail, hp, hc]

theorem C10_own_layering_witness :
    kdbus_ep_policy_check_own_access kdbus_ep_custom_deny kdbus_conn_plain
        [1] = -EPERM ∧
    kdbus_ep_policy_check_own_access kdbus_ep_default kdbus_conn_plain
        [1] = 0 ∧
    kdbus_ep_policy_check_own_access kdbus_ep_default kdbus_conn_priv
        [1] = 0 :=
  ⟨(C10_own_layering kdbus_ep_custom_deny kdbus_conn_plain [1]).1 rfl
      (by decide),
   (C10_own_layering kdbus_ep_default kdbus_conn_plain [1]).2.1 rfl
      (Or.inl rfl),
   (C10_own_layering kdbus_ep_default kdbus_conn_priv [1]).2.2 rfl
      (Or.inl rfl)⟩

/-! ## Metadata snapshots (src/metadata.c)

The buffer is a byte list; return codes are `Int`.  The process context
(`current`: clocks, credentials, comm strings, executable path, command
line, capabilities, cgroup path, audit ids, security label) and the
allocator are modelled as an environment record.  `alloc_fails` is indexed
by a per-snapshot allocation counter so individual `kzalloc`/`kmalloc`
calls can be made to fail. -/

/-- Kernel `roundup_pow_of_two`: the smallest power of two that is ≥ the
argument (the callers only use arguments ≥ 256).  `kdbus_bit_len_aux` is a
fuel-driven bit-length so that everything reduces by `decide`/`rfl`. -/
def kdbus_bit_len_aux : Nat → Nat → Nat
  | 0, _ => 0
  | fuel + 1, n => if n = 0 then 0 else kdbus_bit_len_aux fuel (n / 2) + 1

def kdbus_bit_len (n : Nat) : Nat := kdbus_bit_len_aux n n

def roundup_pow_of_two (n : Nat) : Nat := 2 ^ kdbus_bit_len (n - 1)

/-- Little-endian bytes of a u64 value (as written through `u64` struct
fields). -/
def u64le (v : Nat) : List Nat := (List.range 8).map fun i => v / 256 ^ i % 256

/-- Little-endian bytes of a u32 value. -/
def u32le (v : Nat) : List Nat := (List.range 4).map fun i => v / 256 ^ i % 256

/-- Write `src` into `buf` starting at byte offset `off` (plain `memcpy`
into an in-bounds region). -/
def listWrite (buf : List Nat) (off : Nat) (src : List Nat) : List Nat :=
  buf.take off ++ src ++ buf.drop (off + src.length)

/-! Attach-mask bits and item types.  Modelled from the spec: the numeric
values come from the missing kdbus.h header; the code only relies on the
bits being distinct powers of two and the item types being distinct tags. -/

def KDBUS_ATTACH_TIMESTAMP : Nat := 1

def KDBUS_ATTACH_CREDS : Nat := 2

def KDBUS_ATTACH_NAMES : Nat := 4

def KDBUS_ATTACH_COMM : Nat := 8

def KDBUS_ATTACH_EXE : Nat := 16

def KDBUS_ATTACH_CMDLINE : Nat := 32

def KDBUS_ATTACH_CGROUP : Nat := 64

def KDBUS_ATTACH_CAPS : Nat := 128

def KDBUS_ATTACH_SECLABEL : Nat := 256

def KDBUS_ATTACH_AUDIT : Nat := 512

def KDBUS_ITEM_TIMESTAMP : Nat := 0x1010

def KDBUS_ITEM_CREDS : Nat := 0x1011

def KDBUS_ITEM_NAMES : Nat := 0x1012

def KDBUS_ITEM_TID_COMM : Nat := 0x1013

def KDBUS_ITEM_PID_COMM : Nat := 0x1014

def KDBUS_ITEM_EXE : Nat := 0x1015

def KDBUS_ITEM_CMDLINE : Nat := 0x1016

def KDBUS_ITEM_CGROUP : Nat := 0x1017

def KDBUS_ITEM_CAPS : Nat := 0x1018

def KDBUS_ITEM_SECLABEL : Nat := 0x1019

def KDBUS_ITEM_AUDIT : Nat := 0x101a

def PAGE_SIZE : Nat := 4096

/-- sizeof(struct kdbus_timestamp): two u64s. -/
def sizeof_kdbus_timestamp : Nat := 16

/-- sizeof(struct kdbus_creds): five u64s (uid, gid, pid, tid, starttime). -/
def sizeof_kdbus_creds : Nat := 40

/-- One record of the blob as the caller of `kdbus_meta_append_item` wrote
it: its byte offset, its type tag and its self-declared total size (the
reserved slot is `KDBUS_ALIGN8` of the latter). -/
structure MetaItemInfo where
  off : Nat
  itype : Nat
  isize : Nat
deriving Repr, DecidableEq

/-- struct kdbus_meta: `data`/`size`/`allocated_size`/`attached` and the
cached src-names view, plus bookkeeping that is implicit in C: `items` is
the parse of the buffer (the records written so far, in order), `reallocs`
counts executions of the buffer-growing branch, `allocs` counts allocator
calls (to index `alloc_fails`). -/
structure KMeta where
  data : Option (List Nat)
  size : Nat
  allocated_size : Nat
  attached : Nat
  src_names_len : Nat
  items : List MetaItemInfo
  reallocs : Nat
  allocs : Nat
deriving Repr, DecidableEq

/-- A fresh, zeroed snapshot (callers embed `struct kdbus_meta` in zeroed
allocations). -/
def kdbus_meta_init : KMeta :=
  { data := none, size := 0, allocated_size := 0, attached := 0,
    src_names_len := 0, items := [], reallocs := 0, allocs := 0 }

/-- The process/allocator environment of one `kdbus_meta_append` call. -/
structure MetaEnv where
  alloc_fails : Nat → Bool
  monotonic_ns : Nat
  realtime_ns : Nat
  cred_uid : Nat
  cred_gid : Nat
  cred_pid : Nat
  cred_tid : Nat
  cred_starttime : Nat
  comm_group_leader : List Nat
  comm_current : List Nat
  exe_path_present : Bool
  exe_page_fails : Bool
  exe_dpath : Except Unit (List Nat)
  cmdline_page_fails : Bool
  cmdline : Option (Except Nat (List Nat))
  cap_inh : Nat × Nat
  cap_prm : Nat × Nat
  cap_eff : Nat × Nat
  cap_bset : Nat × Nat
  cgroup_page_fails : Bool
  cgroup : Except Int (List Nat)
  audit_loginuid : Nat
  audit_sessionid : Nat
  seclabel : Except Int (List Nat)

/-- Second half of src/metadata.c `kdbus_meta_append_item` ("double the
pre-allocated buffer size if needed" plus "insert new record"): grow the
buffer to the next power of two when the aligned item does not fit (copying
the buffer, zeroing the new tail and counting the reallocation), then
reserve `KDBUS_ALIGN8 extra_size` bytes and hand back their offset. -/
def kdbus_meta_append_item_grow (env : MetaEnv) (m : KMeta)
    (extra_size : Nat) : KMeta × Except Int Nat :=
  if m.size + KDBUS_ALIGN8 extra_size > m.allocated_size then
    let sz := roundup_pow_of_two (m.size + KDBUS_ALIGN8 extra_size)
    if env.alloc_fails m.allocs then
      ({ m with allocs := m.allocs + 1 }, Except.error (-ENOMEM))
    else
      -- memcpy keeps the first `size` bytes; the model carries the old
      -- buffer's remaining bytes across (the code never reads or exports
      -- them unwritten), and memset zeroes the `size_diff` new tail
      ({ m with data := some (m.data.getD [] ++
                  List.replicate (sz - m.allocated_size) 0),
                allocated_size := sz, allocs := m.allocs + 1,
                reallocs := m.reallocs + 1,
                size := m.size + KDBUS_ALIGN8 extra_size },
        Except.ok m.size)
  else
    ({ m with size := m.size + KDBUS_ALIGN8 extra_size }, Except.ok m.size)

/-- src/metadata.c `kdbus_meta_append_item`: first half ("get new metadata
buffer, pre-allocate at least 512 bytes"): when the buffer does not exist
yet, allocate the smallest power of two ≥ 256 + the aligned item size
(zero-filled); then fall through to the grow/insert half. -/
def kdbus_meta_append_item (env : MetaEnv) (m0 : KMeta) (extra_size : Nat) :
    KMeta × Except Int Nat :=
  match m0.data with
  | none =>
    let sz := roundup_pow_of_two (256 + KDBUS_ALIGN8 extra_size)
    if env.alloc_fails m0.allocs then
      ({ m0 with allocs := m0.allocs + 1 }, Except.error (-ENOMEM))
    else
      kdbus_meta_append_item_grow env
        { m0 with data := some (List.replicate sz 0), allocated_size := sz,
                  allocs := m0.allocs + 1 } extra_size
  | some _ => kdbus_meta_append_item_grow env m0 extra_size

/-- The common shape of every producer's successful path: reserve space
with `kdbus_meta_append_item`, write the `u64 size`/`u64 type` header and
the payload there, and record the item. -/
def kdbus_meta_append_record (env : MetaEnv) (m : KMeta)
    (extra_size itype isize : Nat) (payload : List Nat) : KMeta × Int :=
  match kdbus_meta_append_item env m extra_size with
  | (m1, Except.error e) => (m1, e)
  | (m1, Except.ok off) =>
    let buf := listWrite (m1.data.getD []) off
      (u64le isize ++ u64le itype ++ payload)
    ({ m1 with data := some buf,
               items := m1.items ++ [⟨off, itype, isize⟩] }, 0)

/-- src/metadata.c `kdbus_meta_append_timestamp`: a fixed-size item whose
declared size is the already-aligned `KDBUS_ITEM_SIZE`. -/
def kdbus_meta_append_timestamp (env : MetaEnv) (m : KMeta) : KMeta × Int :=
  kdbus_meta_append_record env m (KDBUS_ITEM_SIZE sizeof_kdbus_timestamp)
    KDBUS_ITEM_TIMESTAMP (KDBUS_ITEM_SIZE sizeof_kdbus_timestamp)
    (u64le env.monotonic_ns ++ u64le env.realtime_ns)

/-- src/metadata.c `kdbus_meta_append_data`: skip empty payloads; the item
declares the unaligned size `KDBUS_PART_HEADER_SIZE + len`. -/
def kdbus_meta_append_data (env : MetaEnv) (m : KMeta) (itype : Nat)
    (buf : List Nat) : KMeta × Int :=
  if buf.length = 0 then (m, 0)
  else
    kdbus_meta_append_record env m (KDBUS_ITEM_SIZE buf.length) itype
      (KDBUS_PART_HEADER_SIZE + buf.length) buf

/-- src/metadata.c `kdbus_meta_append_str`: the string's bytes plus the
terminating NUL. -/
def kdbus_meta_append_str (env : MetaEnv) (m : KMeta) (itype : Nat)
    (str : List Nat) : KMeta × Int :=
  kdbus_meta_append_data env m itype (str ++ [0])

/-- src/metadata.c `kdbus_meta_append_src_names`: concatenate the owned
names, NUL-terminated; owning no names appends nothing and succeeds. -/
def kdbus_meta_append_src_names (env : MetaEnv) (m : KMeta)
    (conn : Option KConn) : KMeta × Int :=
  match conn with
  | none => (m, 0)
  | some conn =>
    let strsize := (conn.names_list.map (fun n => n.length + 1)).sum
    -- no names? then don't do anything
    if strsize = 0 then (m, 0)
    else
      match kdbus_meta_append_record env m (KDBUS_ITEM_SIZE strsize)
          KDBUS_ITEM_NAMES (KDBUS_PART_HEADER_SIZE + strsize)
          (conn.names_list.flatMap (fun n => n ++ [0])) with
      | (m1, r) =>
        if r = 0 then ({ m1 with src_names_len := strsize }, 0) else (m1, r)

/-- src/metadata.c `kdbus_meta_append_cred`: five u64 credential fields of
`current`, declared size is the aligned `KDBUS_ITEM_SIZE`. -/
def kdbus_meta_append_cred (env : MetaEnv) (m : KMeta) : KMeta × Int :=
  kdbus_meta_append_record env m (KDBUS_ITEM_SIZE sizeof_kdbus_creds)
    KDBUS_ITEM_CREDS (KDBUS_ITEM_SIZE sizeof_kdbus_creds)
    (u64le env.cred_uid ++ u64le env.cred_gid ++ u64le env.cred_pid ++
      u64le env.cred_tid ++ u64le env.cred_starttime)

/-- The KDBUS_ATTACH_COMM body of `kdbus_meta_append`: the group leader's
comm as TID_COMM, then the thread's comm as PID_COMM. -/
def kdbus_meta_append_comm (env : MetaEnv) (m : KMeta) : KMeta × Int :=
  match kdbus_meta_append_str env m KDBUS_ITEM_TID_COMM
      env.comm_group_leader with
  | (m1, r1) =>
    if r1 < 0 then (m1, r1)
    else kdbus_meta_append_str env m1 KDBUS_ITEM_PID_COMM env.comm_current

/-- src/metadata.c `kdbus_meta_append_exe`: no executable path resolves to
success without an item; the temporary page may fail to allocate; a failing
`d_path` is skipped silently. -/
def kdbus_meta_append_exe (env : MetaEnv) (m : KMeta) : KMeta × Int :=
  if env.exe_path_present then
    if env.exe_page_fails then (m, -ENOMEM)
    else
      match env.exe_dpath with
      | Except.error _ => (m, 0)
      | Except.ok pathname => kdbus_meta_append_data env m KDBUS_ITEM_EXE pathname
  else (m, 0)

/-- src/metadata.c `kdbus_meta_append_cmdline`: the temporary page may fail
to allocate; absent `mm`/`arg_end` succeeds without an item; a failing
`copy_from_user` returns its (positive) uncopied count; otherwise the
argument bytes capped to one page are appended. -/
def kdbus_meta_append_cmdline (env : MetaEnv) (m : KMeta) : KMeta × Int :=
  if env.cmdline_page_fails then (m, -ENOMEM)
  else
    match env.cmdline with
    | none => (m, 0)
    | some (Except.error k) => (m, (k : Int))
    | some (Except.ok bytes) =>
      kdbus_meta_append_data env m KDBUS_ITEM_CMDLINE (bytes.take PAGE_SIZE)

/-- Modelled from kernel capability headers missing from the excerpt:
`_KERNEL_CAPABILITY_U32S = 2` and `CAP_LAST_CAP = 36`, so each capability
set is two u32 words with the second masked to bits below
`CAP_TO_MASK(CAP_LAST_CAP + 1) = 2^5`. -/
def kdbus_cap_words (w : Nat × Nat) : List Nat :=
  u32le w.1 ++ u32le (w.2 &&& (2 ^ 5 - 1))

/-- src/metadata.c `kdbus_meta_append_caps`: four fixed-size capability
bitsets (inheritable, permitted, effective, bounding), upper bits cleared. -/
def kdbus_meta_append_caps (env : MetaEnv) (m : KMeta) : KMeta × Int :=
  kdbus_meta_append_data env m KDBUS_ITEM_CAPS
    (kdbus_cap_words env.cap_inh ++ kdbus_cap_words env.cap_prm ++
      kdbus_cap_words env.cap_eff ++ kdbus_cap_words env.cap_bset)

/-- src/metadata.c `kdbus_meta_append_cgroup`: the temporary page may fail
to allocate; a `task_cgroup_path` error is propagated; otherwise the path
string is appended. -/
def kdbus_meta_append_cgroup (env : MetaEnv) (m : KMeta) : KMeta × Int :=
  if env.cgroup_page_fails then (m, -ENOMEM)
  else
    match env.cgroup with
    | Except.error e => (m, e)
    | Except.ok path => kdbus_meta_append_str env m KDBUS_ITEM_CGROUP path

/-- src/metadata.c `kdbus_meta_append_audit`: loginuid and sessionid as two
u64 fields. -/
def kdbus_meta_append_audit (env : MetaEnv) (m : KMeta) : KMeta × Int :=
  kdbus_meta_append_data env m KDBUS_ITEM_AUDIT
    (u64le env.audit_loginuid ++ u64le env.audit_sessionid)

/-- src/metadata.c `kdbus_meta_append_seclabel`: an unsupported security
module (`-EOPNOTSUPP`) is success without an item; other errors propagate;
an empty label appends nothing. -/
def kdbus_meta_append_seclabel (env : MetaEnv) (m : KMeta) : KMeta × Int :=
  match env.seclabel with
  | Except.error e => if e = -EOPNOTSUPP then (m, 0) else (m, e)
  | Except.ok label =>
    if label.length > 0 then
      kdbus_meta_append_data env m KDBUS_ITEM_SECLABEL label
    else (m, 0)

/-- One guarded block of `kdbus_meta_append`: run the producer only if the
category is requested and not yet attached; a negative `ret` short-circuits
every later block (the `goto exit`); on success (`ret ≥ 0`) the category is
marked attached. -/
def kdbus_meta_do (bit : Nat) (producer : KMeta → KMeta × Int) (which : Nat)
    (st : KMeta × Int) : KMeta × Int :=
  if st.2 < 0 then st
  else if which &&& bit ≠ 0 ∧ st.1.attached &&& bit = 0 then
    match producer st.1 with
    | (m1, r1) =>
      if r1 < 0 then (m1, r1)
      else ({ m1 with attached := m1.attached ||| bit }, r1)
  else st

/-- The category blocks of `kdbus_meta_append`, in source order (all the
optional `CONFIG_*` categories are compiled in). -/
def kdbus_meta_categories (env : MetaEnv) (conn : Option KConn) :
    List (Nat × (KMeta → KMeta × Int)) :=
  [(KDBUS_ATTACH_TIMESTAMP, kdbus_meta_append_timestamp env),
   (KDBUS_ATTACH_CREDS, kdbus_meta_append_cred env),
   (KDBUS_ATTACH_NAMES, fun m => kdbus_meta_append_src_names env m conn),
   (KDBUS_ATTACH_COMM, kdbus_meta_append_comm env),
   (KDBUS_ATTACH_EXE, kdbus_meta_append_exe env),
   (KDBUS_ATTACH_CMDLINE, kdbus_meta_append_cmdline env),
   (KDBUS_ATTACH_CAPS, kdbus_meta_append_caps env),
   (KDBUS_ATTACH_CGROUP, kdbus_meta_append_cgroup env),
   (KDBUS_ATTACH_AUDIT, kdbus_meta_append_audit env),
   (KDBUS_ATTACH_SECLABEL, kdbus_meta_append_seclabel env)]

/-- src/metadata.c `kdbus_meta_append`: nothing for kernel-generated
messages (no connection); nothing when every requested category is already
attached; otherwise the guarded category blocks in order. -/
def kdbus_meta_append (env : MetaEnv) (meta : KMeta) (conn : Option KConn)
    (which : Nat) : KMeta × Int :=
  match conn with
  | none => (meta, 0)
  | some _ =>
    if which &&& meta.attached = which then (meta, 0)
    else
      (kdbus_meta_categories env conn).foldl
        (fun st bp => kdbus_meta_do bp.1 bp.2 which st) (meta, 0)

/-! ## Arithmetic facts: bit length, `roundup_pow_of_two`, `KDBUS_ALIGN8` -/

theorem kdbus_bit_len_aux_zero (fuel : Nat) : kdbus_bit_len_aux fuel 0 = 0 := by
  cases fuel <;> simp [kdbus_bit_len_aux]

theorem lt_two_pow_bit_len_aux :
    ∀ fuel n, n ≤ fuel → n < 2 ^ kdbus_bit_len_aux fuel n := by
  intro fuel
  induction fuel with
  | zero =>
    intro n h
    have h0 : n = 0 := by omega
    subst h0
    simp [kdbus_bit_len_aux]
  | succ f ih =>
    intro n h
    by_cases h0 : n = 0
    · subst h0; simp [kdbus_bit_len_aux]
    · have hd : n / 2 ≤ f := by omega
      have := ih (n / 2) hd
      have hmod : 2 * (n / 2) + n % 2 = n := by omega
      simp only [kdbus_bit_len_aux, h0, if_false, pow_succ]
      omega

theorem two_pow_pred_bit_len_aux :
    ∀ fuel n, n ≤ fuel → n ≠ 0 → 2 ^ (kdbus_bit_len_aux fuel n - 1) ≤ n := by
  intro fuel
  induction fuel with
  | zero => intro n h h0; omega
  | succ f ih =>
    intro n h h0
    simp only [kdbus_bit_len_aux, h0, if_false, Nat.add_sub_cancel]
    by_cases h2 : n / 2 = 0
    · rw [h2, kdbus_bit_len_aux_zero]
      omega
    · have hd : n / 2 ≤ f := by omega
      have hle := ih (n / 2) hd h2
      have hlt := lt_two_pow_bit_len_aux f (n / 2) hd
      have h1 : 1 ≤ kdbus_bit_len_aux f (n / 2) := by
        by_contra hc
        have : kdbus_bit_len_aux f (n / 2) = 0 := by omega
        rw [this] at hlt
        omega
      calc 2 ^ kdbus_bit_len_aux f (n / 2)
          = 2 * 2 ^ (kdbus_bit_len_aux f (n / 2) - 1) := by
            rw [← pow_succ']
            congr 1
            omega
        _ ≤ 2 * (n / 2) := by omega
        _ ≤ n := by omega

theorem lt_two_pow_bit_len (n : Nat) : n < 2 ^ kdbus_bit_len n :=
  lt_two_pow_bit_len_aux n n le_rfl

theorem two_pow_pred_bit_len (n : Nat) (h : n ≠ 0) :
    2 ^ (kdbus_bit_len n - 1) ≤ n :=
  two_pow_pred_bit_len_aux n n le_rfl h

theorem bit_len_le_of_lt_two_pow {n k : Nat} (h : n < 2 ^ k) :
    kdbus_bit_len n ≤ k := by
  by_cases h0 : n = 0
  · subst h0
    simp [kdbus_bit_len, kdbus_bit_len_aux]
  · by_contra hc
    have h1 : k ≤ kdbus_bit_len n - 1 := by omega
    have := two_pow_pred_bit_len n h0
    have := Nat.pow_le_pow_right (by omega : 1 ≤ 2) h1
    omega

theorem le_roundup_pow_of_two (n : Nat) : n ≤ roundup_pow_of_two n := by
  unfold roundup_pow_of_two
  have := lt_two_pow_bit_len (n - 1)
  omega

theorem roundup_pow_of_two_is_pow (n : Nat) :
    ∃ k, roundup_pow_of_two n = 2 ^ k :=
  ⟨kdbus_bit_len (n - 1), rfl⟩

/-- `roundup_pow_of_two n` is the SMALLEST power of two ≥ n. -/
theorem roundup_pow_of_two_min {n k : Nat} (h : n ≤ 2 ^ k) :
    roundup_pow_of_two n ≤ 2 ^ k := by
  have hpos : 0 < 2 ^ k := pow_pos (by omega) k
  unfold roundup_pow_of_two
  exact Nat.pow_le_pow_right (by omega)
    (bit_len_le_of_lt_two_pow (by omega : n - 1 < 2 ^ k))

theorem roundup_pow_of_two_le_two_mul (n : Nat) (h : 1 ≤ n) :
    roundup_pow_of_two n ≤ 2 * n := by
  unfold roundup_pow_of_two
  by_cases h1 : n = 1
  · subst h1
    simp [kdbus_bit_len, kdbus_bit_len_aux]
  · have hne : n - 1 ≠ 0 := by omega
    have hp := two_pow_pred_bit_len (n - 1) hne
    have hk : 1 ≤ kdbus_bit_len (n - 1) := by
      by_contra hc
      have h0 : kdbus_bit_len (n - 1) = 0 := by omega
      have := lt_two_pow_bit_len (n - 1)
      rw [h0] at this
      omega
    calc 2 ^ kdbus_bit_len (n - 1)
        = 2 * 2 ^ (kdbus_bit_len (n - 1) - 1) := by
          rw [← pow_succ']
          congr 1
          omega
      _ ≤ 2 * (n - 1) := by omega
      _ ≤ 2 * n := by omega

theorem two_pow_doubling {a k : Nat} (ha : a = 2 ^ k) {b : Nat}
    (hb : ∃ j, b = 2 ^ j) (h : a < b) : 2 * a ≤ b := by
  obtain ⟨j, rfl⟩ := hb
  subst ha
  have hkj : k < j := by
    by_contra hc
    have hje : j ≤ k := by omega
    have := Nat.pow_le_pow_right (by omega : 1 ≤ 2) hje
    omega
  have h2 := Nat.pow_le_pow_right (by omega : 1 ≤ 2) (by omega : k + 1 ≤ j)
  calc 2 * 2 ^ k = 2 ^ (k + 1) := (pow_succ' 2 k).symm
    _ ≤ 2 ^ j := h2

theorem align8_dvd (l : Nat) : 8 ∣ KDBUS_ALIGN8 l :=
  ⟨(l + 7) / 8, by unfold KDBUS_ALIGN8; omega⟩

theorem le_align8 (l : Nat) : l ≤ KDBUS_ALIGN8 l := by
  unfold KDBUS_ALIGN8
  omega

theorem align8_le (l : Nat) : KDBUS_ALIGN8 l ≤ l + 7 := by
  unfold KDBUS_ALIGN8
  omega

theorem align8_mono {a b : Nat} (h : a ≤ b) : KDBUS_ALIGN8 a ≤ KDBUS_ALIGN8 b := by
  unfold KDBUS_ALIGN8
  have := Nat.div_le_div_right (c := 8) (by omega : a + 7 ≤ b + 7)
  omega

theorem align8_of_dvd {l : Nat} (h : 8 ∣ l) : KDBUS_ALIGN8 l = l := by
  obtain ⟨c, rfl⟩ := h
  unfold KDBUS_ALIGN8
  omega

theorem align8_align8 (l : Nat) : KDBUS_ALIGN8 (KDBUS_ALIGN8 l) = KDBUS_ALIGN8 l :=
  align8_of_dvd (align8_dvd l)

theorem align8_item_size (s : Nat) :
    KDBUS_ALIGN8 (KDBUS_PART_HEADER_SIZE + s) = KDBUS_ITEM_SIZE s := by
  unfold KDBUS_ITEM_SIZE
  rw [Nat.add_comm]

theorem item_size_aligned (s : Nat) :
    KDBUS_ALIGN8 (KDBUS_ITEM_SIZE s) = KDBUS_ITEM_SIZE s :=
  align8_align8 _

/-! ## Bitmask facts -/

theorem nat_lor_land (a b c : Nat) :
    (a ||| b) &&& c = (a &&& c) ||| (b &&& c) := by
  refine Nat.eq_of_testBit_eq fun i => ?_
  simp only [Nat.testBit_land, Nat.testBit_lor]
  cases a.testBit i <;> cases b.testBit i <;> cases c.testBit i <;> rfl

theorem nat_lor_eq_zero {a b : Nat} :
    a ||| b = 0 ↔ a = 0 ∧ b = 0 := by
  constructor
  · intro h
    have hbit : ∀ i, a.testBit i = false ∧ b.testBit i = false := by
      intro i
      have hh := congrArg (fun x => x.testBit i) h
      simp only [Nat.testBit_lor, Nat.zero_testBit] at hh
      cases ha : a.testBit i <;> cases hb : b.testBit i <;>
        simp [ha, hb] at hh ⊢
    exact ⟨Nat.eq_of_testBit_eq fun i => by simp [(hbit i).1],
           Nat.eq_of_testBit_eq fun i => by simp [(hbit i).2]⟩
  · rintro ⟨rfl, rfl⟩
    rfl

theorem nat_land_self (n : Nat) : n &&& n = n :=
  Nat.eq_of_testBit_eq fun i => by simp [Nat.testBit_land]

/-- From `a &&& mask = 0` and `mask &&& b = b` (the bit `b` lies inside
`mask`), conclude `a &&& b = 0`. -/
theorem land_zero_of_subset {a mask b : Nat} (h : a &&& mask = 0)
    (hb : mask &&& b = b) : a &&& b = 0 := by
  calc a &&& b = a &&& (mask &&& b) := by rw [hb]
    _ = (a &&& mask) &&& b := (Nat.land_assoc a mask b).symm
    _ = 0 := by rw [h]; simp

/-! ## The item chain: offsets advance by the 8-byte-aligned declared size -/

/-- `kdbus_chain_ok o items e`: starting at offset `o`, each item sits at
the running offset and the next item follows at exactly
`KDBUS_ALIGN8` of its declared size; the chain ends at offset `e` (the
blob's logical size).  This is precisely the `KDBUS_ITEM_NEXT` /
`KDBUS_ITEM_FOREACH` reader contract of src/test/kdbus-util.h. -/
def kdbus_chain_ok : Nat → List MetaItemInfo → Nat → Prop
  | o, [], e => o = e
  | o, it :: rest, e =>
    it.off = o ∧ kdbus_chain_ok (o + KDBUS_ALIGN8 it.isize) rest e

theorem kdbus_chain_ok_snoc {o e : Nat} {xs : List MetaItemInfo}
    (h : kdbus_chain_ok o xs e) (t s : Nat) :
    kdbus_chain_ok o (xs ++ [⟨e, t, s⟩]) (e + KDBUS_ALIGN8 s) := by
  induction xs generalizing o with
  | nil =>
    simp only [kdbus_chain_ok] at h
    subst h
    exact ⟨rfl, rfl⟩
  | cons x rest ih =>
    obtain ⟨h1, h2⟩ := h
    exact ⟨h1, ih h2⟩

theorem kdbus_chain_ok_dvd {o e : Nat} {xs : List MetaItemInfo}
    (h : kdbus_chain_ok o xs e) (ho : 8 ∣ o) : 8 ∣ e := by
  induction xs generalizing o with
  | nil => simpa [kdbus_chain_ok] using h ▸ ho
  | cons x rest ih =>
    exact ih h.2 (Nat.dvd_add ho (align8_dvd _))

theorem kdbus_chain_ok_offsets {o e : Nat} {xs : List MetaItemInfo}
    (h : kdbus_chain_ok o xs e) (ho : 8 ∣ o) :
    ∀ it ∈ xs, 8 ∣ it.off := by
  induction xs generalizing o with
  | nil => intro it hit; cases hit
  | cons x rest ih =>
    intro it hit
    rw [List.mem_cons] at hit
    rcases hit with rfl | hit
    · exact h.1 ▸ ho
    · exact ih h.2 (Nat.dvd_add ho (align8_dvd _)) it hit

/-! ## Behaviour of `kdbus_meta_append_item` and `kdbus_meta_append_record` -/

theorem kdbus_meta_append_item_grow_frame (env : MetaEnv) (m : KMeta)
    (extra : Nat) :
    (kdbus_meta_append_item_grow env m extra).1.attached = m.attached ∧
    (kdbus_meta_append_item_grow env m extra).1.items = m.items ∧
    (kdbus_meta_append_item_grow env m extra).1.src_names_len =
      m.src_names_len := by
  unfold kdbus_meta_append_item_grow
  split_ifs <;> simp

theorem kdbus_meta_append_item_grow_ok (env : MetaEnv) (m : KMeta)
    (extra : Nat) {m1 : KMeta} {off : Nat}
    (h : kdbus_meta_append_item_grow env m extra = (m1, Except.ok off)) :
    off = m.size ∧ m1.size = m.size + KDBUS_ALIGN8 extra := by
  unfold kdbus_meta_append_item_grow at h
  split_ifs at h <;> cases h <;> exact ⟨rfl, rfl⟩

theorem kdbus_meta_append_item_grow_err (env : MetaEnv) (m : KMeta)
    (extra : Nat) {m1 : KMeta} {e : Int}
    (h : kdbus_meta_append_item_grow env m extra = (m1, Except.error e)) :
    m1.size = m.size ∧ e = -ENOMEM := by
  unfold kdbus_meta_append_item_grow at h
  split_ifs at h <;> cases h
  exact ⟨rfl, rfl⟩

theorem kdbus_meta_append_item_frame (env : MetaEnv) (m : KMeta)
    (extra : Nat) :
    (kdbus_meta_append_item env m extra).1.attached = m.attached ∧
    (kdbus_meta_append_item env m extra).1.items = m.items ∧
    (kdbus_meta_append_item env m extra).1.src_names_len =
      m.src_names_len := by
  unfold kdbus_meta_append_item
  rcases hd : m.data with _ | buf
  · simp only []
    split_ifs
    · simp
    · exact kdbus_meta_append_item_grow_frame env _ extra
  · exact kdbus_meta_append_item_grow_frame env m extra

theorem kdbus_meta_append_item_ok (env : MetaEnv) (m : KMeta) (extra : Nat)
    {m1 : KMeta} {off : Nat}
    (h : kdbus_meta_append_item env m extra = (m1, Except.ok off)) :
    off = m.size ∧ m1.size = m.size + KDBUS_ALIGN8 extra := by
  unfold kdbus_meta_append_item at h
  rcases hd : m.data with _ | buf <;> rw [hd] at h <;> simp only [] at h
  · split_ifs at h
    · simp at h
    · have h2 := kdbus_meta_append_item_grow_ok env _ extra h
      simpa using h2
  · exact kdbus_meta_append_item_grow_ok env m extra h

theorem kdbus_meta_append_item_err (env : MetaEnv) (m : KMeta) (extra : Nat)
    {m1 : KMeta} {e : Int}
    (h : kdbus_meta_append_item env m extra = (m1, Except.error e)) :
    m1.size = m.size ∧ e = -ENOMEM := by
  unfold kdbus_meta_append_item at h
  rcases hd : m.data with _ | buf <;> rw [hd] at h <;> simp only [] at h
  · split_ifs at h
    · cases h
      exact ⟨rfl, rfl⟩
    · have h2 := kdbus_meta_append_item_grow_err env _ extra h
      simpa using h2
  · exact kdbus_meta_append_item_grow_err env m extra h

theorem kdbus_meta_append_record_spec (env : MetaEnv) (m : KMeta)
    (extra itype isize : Nat) (payload : List Nat) :
    (kdbus_meta_append_record env m extra itype isize payload).1.attached =
      m.attached ∧
    (kdbus_meta_append_record env m extra itype isize payload).1.src_names_len
      = m.src_names_len ∧
    ((kdbus_meta_append_record env m extra itype isize payload).2 = 0 →
      (kdbus_meta_append_record env m extra itype isize payload).1.items =
        m.items ++ [⟨m.size, itype, isize⟩] ∧
      (kdbus_meta_append_record env m extra itype isize payload).1.size =
        m.size + KDBUS_ALIGN8 extra) ∧
    ((kdbus_meta_append_record env m extra itype isize payload).2 ≠ 0 →
      (kdbus_meta_append_record env m extra itype isize payload).1.items =
        m.items ∧
      (kdbus_meta_append_record env m extra itype isize payload).1.size =
        m.size ∧
      (kdbus_meta_append_record env m extra itype isize payload).2 < 0) := by
  unfold kdbus_meta_append_record
  rcases hit : kdbus_meta_append_item env m extra with ⟨m1, r⟩
  rcases r with e | off
  · obtain ⟨hsz, he⟩ := kdbus_meta_append_item_err env m extra hit
    obtain ⟨ha, hi, hs⟩ := kdbus_meta_append_item_frame env m extra
    rw [hit] at ha hi hs
    simp only []
    refine ⟨ha, hs, ?_, ?_⟩
    · intro h0
      rw [he] at h0
      simp [ENOMEM] at h0
    · intro _
      rw [he]
      refine ⟨hi, hsz, by simp [ENOMEM]⟩
  · obtain ⟨hoff, hsz⟩ := kdbus_meta_append_item_ok env m extra hit
    obtain ⟨ha, hi, hs⟩ := kdbus_meta_append_item_frame env m extra
    rw [hit] at ha hi hs
    subst hoff
    simp only []
    exact ⟨ha, hs, fun _ => ⟨by rw [hi], hsz⟩, fun h0 => absurd rfl h0⟩

/-- The chain invariant survives `kdbus_meta_append_record` whenever the
declared size and the reserved size agree up to alignment (true at every
call site). -/
theorem kdbus_meta_append_record_chain (env : MetaEnv) (m : KMeta)
    (extra itype isize : Nat) (payload : List Nat)
    (hal : KDBUS_ALIGN8 isize = KDBUS_ALIGN8 extra)
    (hm : kdbus_chain_ok 0 m.items m.size) :
    kdbus_chain_ok 0
      (kdbus_meta_append_record env m extra itype isize payload).1.items
      (kdbus_meta_append_record env m extra itype isize payload).1.size := by
  obtain ⟨-, -, hok, herr⟩ :=
    kdbus_meta_append_record_spec env m extra itype isize payload
  by_cases h0 : (kdbus_meta_append_record env m extra itype isize payload).2 = 0
  · obtain ⟨hi, hs⟩ := hok h0
    rw [hi, hs, ← hal]
    exact kdbus_chain_ok_snoc hm itype isize
  · obtain ⟨hi, hs, -⟩ := herr h0
    rw [hi, hs]
    exact hm

/-- Guaranteed success of the reserve step when the allocator never fails. -/
theorem kdbus_meta_append_item_grow_isok (env : MetaEnv) (m : KMeta)
    (extra : Nat) (halloc : ∀ n, env.alloc_fails n = false) :
    ∃ m1 off, kdbus_meta_append_item_grow env m extra =
      (m1, Except.ok off) := by
  unfold kdbus_meta_append_item_grow
  split_ifs with h1 h2
  · rw [halloc] at h2
    cases h2
  · exact ⟨_, _, rfl⟩
  · exact ⟨_, _, rfl⟩

theorem kdbus_meta_append_item_isok (env : MetaEnv) (m : KMeta)
    (extra : Nat) (halloc : ∀ n, env.alloc_fails n = false) :
    ∃ m1 off, kdbus_meta_append_item env m extra = (m1, Except.ok off) := by
  unfold kdbus_meta_append_item
  rcases hd : m.data with _ | buf <;> simp only []
  · rw [halloc]
    simp only [Bool.false_eq_true, if_false]
    exact kdbus_meta_append_item_grow_isok env _ extra halloc
  · exact kdbus_meta_append_item_grow_isok env m extra halloc

theorem kdbus_meta_append_record_ok_of_alloc (env : MetaEnv) (m : KMeta)
    (extra itype isize : Nat) (payload : List Nat)
    (halloc : ∀ n, env.alloc_fails n = false) :
    (kdbus_meta_append_record env m extra itype isize payload).2 = 0 := by
  obtain ⟨m1, off, hok⟩ := kdbus_meta_append_item_isok env m extra halloc
  unfold kdbus_meta_append_record
  rw [hok]

/-! ## Per-producer lemmas: the attach mask is never touched by a producer,
and the item chain stays well-formed. -/

theorem kdbus_meta_append_record_frame (env : MetaEnv) (m : KMeta)
    (extra itype isize : Nat) (payload : List Nat) :
    (kdbus_meta_append_record env m extra itype isize payload).1.attached =
      m.attached :=
  (kdbus_meta_append_record_spec env m extra itype isize payload).1

theorem kdbus_meta_append_data_frame (env : MetaEnv) (m : KMeta)
    (itype : Nat) (buf : List Nat) :
    (kdbus_meta_append_data env m itype buf).1.attached = m.attached := by
  unfold kdbus_meta_append_data
  split_ifs
  · rfl
  · exact kdbus_meta_append_record_frame env m _ itype _ buf

theorem kdbus_meta_append_data_chain (env : MetaEnv) (m : KMeta)
    (itype : Nat) (buf : List Nat)
    (hm : kdbus_chain_ok 0 m.items m.size) :
    kdbus_chain_ok 0 (kdbus_meta_append_data env m itype buf).1.items
      (kdbus_meta_append_data env m itype buf).1.size := by
  unfold kdbus_meta_append_data
  split_ifs
  · exact hm
  · exact kdbus_meta_append_record_chain env m _ itype _ buf
      ((align8_item_size buf.length).trans (item_size_aligned _).symm) hm

theorem kdbus_meta_append_str_frame (env : MetaEnv) (m : KMeta)
    (itype : Nat) (str : List Nat) :
    (kdbus_meta_append_str env m itype str).1.attached = m.attached :=
  kdbus_meta_append_data_frame env m itype (str ++ [0])

theorem kdbus_meta_append_str_chain (env : MetaEnv) (m : KMeta)
    (itype : Nat) (str : List Nat)
    (hm : kdbus_chain_ok 0 m.items m.size) :
    kdbus_chain_ok 0 (kdbus_meta_append_str env m itype str).1.items
      (kdbus_meta_append_str env m itype str).1.size :=
  kdbus_meta_append_data_chain env m itype (str ++ [0]) hm

theorem kdbus_meta_append_timestamp_frame (env : MetaEnv) (m : KMeta) :
    (kdbus_meta_append_timestamp env m).1.attached = m.attached :=
  kdbus_meta_append_record_frame env m _ _ _ _

theorem kdbus_meta_append_timestamp_chain (env : MetaEnv) (m : KMeta)
    (hm : kdbus_chain_ok 0 m.items m.size) :
    kdbus_chain_ok 0 (kdbus_meta_append_timestamp env m).1.items
      (kdbus_meta_append_timestamp env m).1.size :=
  kdbus_meta_append_record_chain env m _ _ _ _ rfl hm

theorem kdbus_meta_append_cred_frame (env : MetaEnv) (m : KMeta) :
    (kdbus_meta_append_cred env m).1.attached = m.attached :=
  kdbus_meta_append_record_frame env m _ _ _ _

theorem kdbus_meta_append_cred_chain (env : MetaEnv) (m : KMeta)
    (hm : kdbus_chain_ok 0 m.items m.size) :
    kdbus_chain_ok 0 (kdbus_meta_append_cred env m).1.items
      (kdbus_meta_append_cred env m).1.size :=
  kdbus_meta_append_record_chain env m _ _ _ _ rfl hm

theorem kdbus_meta_append_src_names_frame (env : MetaEnv) (m : KMeta)
    (conn : Option KConn) :
    (kdbus_meta_append_src_names env m conn).1.attached = m.attached := by
  unfold kdbus_meta_append_src_names
  rcases conn with _ | c
  · rfl
  · simp only []
    split_ifs
    · rfl
    all_goals
      exact kdbus_meta_append_record_frame env m
        (KDBUS_ITEM_SIZE ((c.names_list.map (fun n => n.length + 1)).sum))
        KDBUS_ITEM_NAMES
        (KDBUS_PART_HEADER_SIZE +
          (c.names_list.map (fun n => n.length + 1)).sum)
        (c.names_list.flatMap (fun n => n ++ [0]))

theorem kdbus_meta_append_src_names_chain (env : MetaEnv) (m : KMeta)
    (conn : Option KConn) (hm : kdbus_chain_ok 0 m.items m.size) :
    kdbus_chain_ok 0 (kdbus_meta_append_src_names env m conn).1.items
      (kdbus_meta_append_src_names env m conn).1.size := by
  unfold kdbus_meta_append_src_names
  rcases conn with _ | c
  · exact hm
  · simp only []
    split_ifs
    · exact hm
    all_goals
      exact kdbus_meta_append_record_chain env m
        (KDBUS_ITEM_SIZE ((c.names_list.map (fun n => n.length + 1)).sum))
        KDBUS_ITEM_NAMES
        (KDBUS_PART_HEADER_SIZE +
          (c.names_list.map (fun n => n.length + 1)).sum)
        (c.names_list.flatMap (fun n => n ++ [0]))
        ((align8_item_size _).trans (item_size_aligned _).symm) hm

theorem kdbus_meta_append_comm_frame (env : MetaEnv) (m : KMeta) :
    (kdbus_meta_append_comm env m).1.attached = m.attached := by
  unfold kdbus_meta_append_comm
  rcases h1 : kdbus_meta_append_str env m KDBUS_ITEM_TID_COMM
      env.comm_group_leader with ⟨ma, ra⟩
  have hfa := kdbus_meta_append_str_frame env m KDBUS_ITEM_TID_COMM
    env.comm_group_leader
  rw [h1] at hfa
  simp only []
  split_ifs
  · exact hfa
  · exact (kdbus_meta_append_str_frame env ma KDBUS_ITEM_PID_COMM
      env.comm_current).trans hfa

theorem kdbus_meta_append_comm_chain (env : MetaEnv) (m : KMeta)
    (hm : kdbus_chain_ok 0 m.items m.size) :
    kdbus_chain_ok 0 (kdbus_meta_append_comm env m).1.items
      (kdbus_meta_append_comm env m).1.size := by
  unfold kdbus_meta_append_comm
  rcases h1 : kdbus_meta_append_str env m KDBUS_ITEM_TID_COMM
      env.comm_group_leader with ⟨ma, ra⟩
  have hca := kdbus_meta_append_str_chain env m KDBUS_ITEM_TID_COMM
    env.comm_group_leader hm
  rw [h1] at hca
  simp only []
  split_ifs
  · exact hca
  · exact kdbus_meta_append_str_chain env ma KDBUS_ITEM_PID_COMM
      env.comm_current hca

theorem kdbus_meta_append_exe_frame (env : MetaEnv) (m : KMeta) :
    (kdbus_meta_append_exe env m).1.attached = m.attached := by
  unfold kdbus_meta_append_exe
  split_ifs
  · rfl
  · rcases hdp : env.exe_dpath with e | p <;> simp only [hdp]
    exact kdbus_meta_append_data_frame env m KDBUS_ITEM_EXE p
  · rfl

theorem kdbus_meta_append_exe_chain (env : MetaEnv) (m : KMeta)
    (hm : kdbus_chain_ok 0 m.items m.size) :
    kdbus_chain_ok 0 (kdbus_meta_append_exe env m).1.items
      (kdbus_meta_append_exe env m).1.size := by
  unfold kdbus_meta_append_exe
  split_ifs
  · exact hm
  · rcases hdp : env.exe_dpath with e | p <;> simp only [hdp]
    · exact hm
    · exact kdbus_meta_append_data_chain env m KDBUS_ITEM_EXE p hm
  · exact hm

theorem kdbus_meta_append_cmdline_frame (env : MetaEnv) (m : KMeta) :
    (kdbus_meta_append_cmdline env m).1.attached = m.attached := by
  unfold kdbus_meta_append_cmdline
  split_ifs
  · rfl
  · rcases env.cmdline with _ | cl
    · rfl
    · rcases cl with k | bytes
      · rfl
      · exact kdbus_meta_append_data_frame env m KDBUS_ITEM_CMDLINE
          (bytes.take PAGE_SIZE)

theorem kdbus_meta_append_cmdline_chain (env : MetaEnv) (m : KMeta)
    (hm : kdbus_chain_ok 0 m.items m.size) :
    kdbus_chain_ok 0 (kdbus_meta_append_cmdline env m).1.items
      (kdbus_meta_append_cmdline env m).1.size := by
  unfold kdbus_meta_append_cmdline
  split_ifs
  · exact hm
  · rcases env.cmdline with _ | cl
    · exact hm
    · rcases cl with k | bytes
      · exact hm
      · exact kdbus_meta_append_data_chain env m KDBUS_ITEM_CMDLINE
          (bytes.take PAGE_SIZE) hm

theorem kdbus_meta_append_caps_frame (env : MetaEnv) (m : KMeta) :
    (kdbus_meta_append_caps env m).1.attached = m.attached :=
  kdbus_meta_append_data_frame env m KDBUS_ITEM_CAPS _

theorem kdbus_meta_append_caps_chain (env : MetaEnv) (m : KMeta)
    (hm : kdbus_chain_ok 0 m.items m.size) :
    kdbus_chain_ok 0 (kdbus_meta_append_caps env m).1.items
      (kdbus_meta_append_caps env m).1.size :=
  kdbus_meta_append_data_chain env m KDBUS_ITEM_CAPS _ hm

theorem kdbus_meta_append_cgroup_frame (env : MetaEnv) (m : KMeta) :
    (kdbus_meta_append_cgroup env m).1.attached = m.attached := by
  unfold kdbus_meta_append_cgroup
  split_ifs
  · rfl
  · rcases env.cgroup with e | p
    · rfl
    · exact kdbus_meta_append_str_frame env m KDBUS_ITEM_CGROUP p

theorem kdbus_meta_append_cgroup_chain (env : MetaEnv) (m : KMeta)
    (hm : kdbus_chain_ok 0 m.items m.size) :
    kdbus_chain_ok 0 (kdbus_meta_append_cgroup env m).1.items
      (kdbus_meta_append_cgroup env m).1.size := by
  unfold kdbus_meta_append_cgroup
  split_ifs
  · exact hm
  · rcases env.cgroup with e | p
    · exact hm
    · exact kdbus_meta_append_str_chain env m KDBUS_ITEM_CGROUP p hm

theorem kdbus_meta_append_audit_frame (env : MetaEnv) (m : KMeta) :
    (kdbus_meta_append_audit env m).1.attached = m.attached :=
  kdbus_meta_append_data_frame env m KDBUS_ITEM_AUDIT _

theorem kdbus_meta_append_audit_chain (env : MetaEnv) (m : KMeta)
    (hm : kdbus_chain_ok 0 m.items m.size) :
    kdbus_chain_ok 0 (kdbus_meta_append_audit env m).1.items
      (kdbus_meta_append_audit env m).1.size :=
  kdbus_meta_append_data_chain env m KDBUS_ITEM_AUDIT _ hm

theorem kdbus_meta_append_seclabel_frame (env : MetaEnv) (m : KMeta) :
    (kdbus_meta_append_seclabel env m).1.attached = m.attached := by
  unfold kdbus_meta_append_seclabel
  rcases hs : env.seclabel with e | label <;> simp only [hs]
  · split_ifs <;> rfl
  · split_ifs
    · exact kdbus_meta_append_data_frame env m KDBUS_ITEM_SECLABEL label
    · rfl

theorem kdbus_meta_append_seclabel_chain (env : MetaEnv) (m : KMeta)
    (hm : kdbus_chain_ok 0 m.items m.size) :
    kdbus_chain_ok 0 (kdbus_meta_append_seclabel env m).1.items
      (kdbus_meta_append_seclabel env m).1.size := by
  unfold kdbus_meta_append_seclabel
  rcases hs : env.seclabel with e | label <;> simp only [hs]
  · split_ifs <;> exact hm
  · split_ifs
    · exact kdbus_meta_append_data_chain env m KDBUS_ITEM_SECLABEL label hm
    · exact hm

/-! ## The category fold of `kdbus_meta_append` -/

theorem kdbus_meta_categories_spec (env : MetaEnv) (conn : Option KConn) :
    ∀ bp ∈ kdbus_meta_categories env conn, ∀ m : KMeta,
      (bp.2 m).1.attached = m.attached ∧
      (kdbus_chain_ok 0 m.items m.size →
        kdbus_chain_ok 0 (bp.2 m).1.items (bp.2 m).1.size) := by
  intro bp hbp m
  simp only [kdbus_meta_categories, List.mem_cons, List.not_mem_nil,
    or_false] at hbp
  rcases hbp with rfl | rfl | rfl | rfl | rfl | rfl | rfl | rfl | rfl | rfl
  · exact ⟨kdbus_meta_append_timestamp_frame env m,
      kdbus_meta_append_timestamp_chain env m⟩
  · exact ⟨kdbus_meta_append_cred_frame env m,
      kdbus_meta_append_cred_chain env m⟩
  · exact ⟨kdbus_meta_append_src_names_frame env m conn,
      kdbus_meta_append_src_names_chain env m conn⟩
  · exact ⟨kdbus_meta_append_comm_frame env m,
      kdbus_meta_append_comm_chain env m⟩
  · exact ⟨kdbus_meta_append_exe_frame env m,
      kdbus_meta_append_exe_chain env m⟩
  · exact ⟨kdbus_meta_append_cmdline_frame env m,
      kdbus_meta_append_cmdline_chain env m⟩
  · exact ⟨kdbus_meta_append_caps_frame env m,
      kdbus_meta_append_caps_chain env m⟩
  · exact ⟨kdbus_meta_append_cgroup_frame env m,
      kdbus_meta_append_cgroup_chain env m⟩
  · exact ⟨kdbus_meta_append_audit_frame env m,
      kdbus_meta_append_audit_chain env m⟩
  · exact ⟨kdbus_meta_append_seclabel_frame env m,
      kdbus_meta_append_seclabel_chain env m⟩

theorem kdbus_meta_categories_bits (env : MetaEnv) (conn : Option KConn) :
    ∀ bp ∈ kdbus_meta_categories env conn, bp.1 ≠ 0 := by
  intro bp hbp
  simp only [kdbus_meta_categories, List.mem_cons, List.not_mem_nil,
    or_false] at hbp
  rcases hbp with rfl | rfl | rfl | rfl | rfl | rfl | rfl | rfl | rfl | rfl <;>
    simp [KDBUS_ATTACH_TIMESTAMP, KDBUS_ATTACH_CREDS, KDBUS_ATTACH_NAMES,
      KDBUS_ATTACH_COMM, KDBUS_ATTACH_EXE, KDBUS_ATTACH_CMDLINE,
      KDBUS_ATTACH_CAPS, KDBUS_ATTACH_CGROUP, KDBUS_ATTACH_AUDIT,
      KDBUS_ATTACH_SECLABEL]

/-- A negative `ret` freezes the rest of the fold (the `goto exit`). -/
theorem kdbus_meta_fold_err (which : Nat)
    (cats : List (Nat × (KMeta → KMeta × Int))) (st : KMeta × Int)
    (h : st.2 < 0) :
    cats.foldl (fun st bp => kdbus_meta_do bp.1 bp.2 which st) st = st := by
  induction cats with
  | nil => rfl
  | cons bp rest ih =>
    simp only [List.foldl_cons]
    rw [kdbus_meta_do, if_pos h]
    exact ih

/-- Attached bits are never lost by the fold (producers do not touch the
mask; the step only ORs bits in). -/
theorem kdbus_meta_fold_attached_mono (which : Nat)
    (cats : List (Nat × (KMeta → KMeta × Int)))
    (hA : ∀ bp ∈ cats, ∀ m : KMeta, (bp.2 m).1.attached = m.attached)
    (st : KMeta × Int) (x : Nat) (hx : st.1.attached &&& x ≠ 0) :
    (cats.foldl (fun st bp => kdbus_meta_do bp.1 bp.2 which st)
      st).1.attached &&& x ≠ 0 := by
  induction cats generalizing st with
  | nil => exact hx
  | cons bp rest ih =>
    simp only [List.foldl_cons]
    refine ih (fun q hq => hA q (List.mem_cons_of_mem bp hq)) _ ?_
    unfold kdbus_meta_do
    split_ifs with h1 h2
    · exact hx
    · rcases hp : bp.2 st.1 with ⟨m1, r1⟩
      have hat : m1.attached = st.1.attached := by
        have := hA bp (List.mem_cons_self bp rest) st.1
        rw [hp] at this
        exact this
      simp only []
      split_ifs with h3
      · rw [hat]
        exact hx
      · simp only [nat_lor_land, hat]
        intro hz
        exact hx (nat_lor_eq_zero.mp hz).1
    · exact hx

/-- One guarded block, characterised by equations (no unfolding needed at
use sites).  Requires that the producer does not touch the attach mask. -/
theorem kdbus_meta_do_spec (bit : Nat) (p : KMeta → KMeta × Int)
    (which : Nat) (st : KMeta × Int)
    (hp : (p st.1).1.attached = st.1.attached) :
    (st.2 < 0 ∧ kdbus_meta_do bit p which st = st) ∨
    (¬ st.2 < 0 ∧ ¬ (which &&& bit ≠ 0 ∧ st.1.attached &&& bit = 0) ∧
      kdbus_meta_do bit p which st = st) ∨
    (¬ st.2 < 0 ∧ (which &&& bit ≠ 0 ∧ st.1.attached &&& bit = 0) ∧
      (((p st.1).2 < 0 ∧ kdbus_meta_do bit p which st = p st.1) ∨
       (¬ (p st.1).2 < 0 ∧ kdbus_meta_do bit p which st =
          ({ (p st.1).1 with attached := st.1.attached ||| bit },
            (p st.1).2)))) := by
  unfold kdbus_meta_do
  split_ifs with h1 h2
  · exact Or.inl ⟨h1, rfl⟩
  · rcases hps : p st.1 with ⟨m1, r1⟩
    rw [hps] at hp
    simp only [] at hp ⊢
    refine Or.inr (Or.inr ⟨h1, h2, ?_⟩)
    split_ifs with h3
    · exact Or.inl ⟨h3, rfl⟩
    · exact Or.inr ⟨h3, by rw [hp]⟩
  · exact Or.inr (Or.inl ⟨h1, h2, rfl⟩)

/-- After a fold that did not fail, every requested category bit is
attached. -/
theorem kdbus_meta_fold_success_bits (which : Nat)
    (cats : List (Nat × (KMeta → KMeta × Int)))
    (hA : ∀ bp ∈ cats, ∀ m : KMeta, (bp.2 m).1.attached = m.attached)
    (hB : ∀ bp ∈ cats, bp.1 ≠ 0) (st : KMeta × Int)
    (hok : ¬ (cats.foldl (fun st bp => kdbus_meta_do bp.1 bp.2 which st)
      st).2 < 0) :
    ∀ bp ∈ cats, which &&& bp.1 ≠ 0 →
      (cats.foldl (fun st bp => kdbus_meta_do bp.1 bp.2 which st)
        st).1.attached &&& bp.1 ≠ 0 := by
  induction cats generalizing st with
  | nil => intro bp hbp; cases hbp
  | cons bq rest ih =>
    intro bp hbp hreq
    have hArest : ∀ q ∈ rest, ∀ m : KMeta, (q.2 m).1.attached = m.attached :=
      fun q hq => hA q (List.mem_cons_of_mem bq hq)
    have hBrest : ∀ q ∈ rest, q.1 ≠ 0 :=
      fun q hq => hB q (List.mem_cons_of_mem bq hq)
    simp only [List.foldl_cons] at hok ⊢
    rw [List.mem_cons] at hbp
    rcases hbp with rfl | hbp
    · -- the head category: either it was already attached, or its producer
      -- just ran; in both cases the bit survives the rest of the fold
      rcases kdbus_meta_do_spec bp.1 bp.2 which st
          (hA bp (List.mem_cons_self bp rest) st.1) with
        ⟨h1, heq⟩ | ⟨h1, hg, heq⟩ | ⟨h1, hg, hcase⟩
      · rw [heq] at hok
        rw [kdbus_meta_fold_err which rest st h1] at hok
        exact absurd h1 hok
      · rw [heq] at hok ⊢
        have hset : st.1.attached &&& bp.1 ≠ 0 := fun hz => hg ⟨hreq, hz⟩
        exact kdbus_meta_fold_attached_mono which rest hArest st bp.1 hset
      · rcases hcase with ⟨hneg, heq⟩ | ⟨hpos, heq⟩
        · rw [heq] at hok
          rw [kdbus_meta_fold_err which rest _ hneg] at hok
          exact absurd hneg hok
        · rw [heq] at hok ⊢
          refine kdbus_meta_fold_attached_mono which rest hArest _ bp.1 ?_
          simp only [nat_lor_land, nat_land_self]
          intro hz
          exact hB bp (List.mem_cons_self bp rest)
            (nat_lor_eq_zero.mp hz).2
    · exact ih hArest hBrest _ hok bp hbp hreq

/-- If no requested category is missing from the attach mask, the fold is
the identity on a clean (ret = 0) state. -/
theorem kdbus_meta_fold_skip (which : Nat)
    (cats : List (Nat × (KMeta → KMeta × Int))) (m : KMeta)
    (hs : ∀ bp ∈ cats, ¬ (which &&& bp.1 ≠ 0 ∧ m.attached &&& bp.1 = 0)) :
    cats.foldl (fun st bp => kdbus_meta_do bp.1 bp.2 which st) (m, 0) =
      (m, 0) := by
  induction cats with
  | nil => rfl
  | cons bp rest ih =>
    simp only [List.foldl_cons]
    have hstep : kdbus_meta_do bp.1 bp.2 which (m, 0) = (m, 0) := by
      unfold kdbus_meta_do
      rw [if_neg (by norm_num : ¬ ((m, (0 : Int)).2 < 0)),
        if_neg (hs bp (List.mem_cons_self bp rest))]
    rw [hstep]
    exact ih fun q hq => hs q (List.mem_cons_of_mem bp hq)

/-! ## Pointwise equations for one guarded block -/

theorem kdbus_meta_do_skip_bit (bit : Nat) (p : KMeta → KMeta × Int)
    (which : Nat) (st : KMeta × Int) (h : which &&& bit = 0) :
    kdbus_meta_do bit p which st = st := by
  unfold kdbus_meta_do
  split_ifs with h1 h2
  · rfl
  · exact absurd h h2.1
  · rfl

theorem kdbus_meta_do_skip_attached (bit : Nat) (p : KMeta → KMeta × Int)
    (which : Nat) (st : KMeta × Int) (h : st.1.attached &&& bit ≠ 0) :
    kdbus_meta_do bit p which st = st := by
  unfold kdbus_meta_do
  split_ifs with h1 h2
  · rfl
  · exact absurd h2.2 h
  · rfl

theorem kdbus_meta_do_run (bit : Nat) (p : KMeta → KMeta × Int)
    (which : Nat) (st : KMeta × Int) (h1 : ¬ st.2 < 0)
    (h2 : which &&& bit ≠ 0) (h3 : st.1.attached &&& bit = 0)
    (h4 : ¬ (p st.1).2 < 0) :
    kdbus_meta_do bit p which st =
      ({ (p st.1).1 with attached := (p st.1).1.attached ||| bit },
        (p st.1).2) := by
  unfold kdbus_meta_do
  rw [if_neg h1, if_pos ⟨h2, h3⟩]
  rcases hps : p st.1 with ⟨m1, r1⟩
  rw [hps] at h4
  simp only [] at h4 ⊢
  rw [if_neg h4]

theorem kdbus_meta_do_run_err (bit : Nat) (p : KMeta → KMeta × Int)
    (which : Nat) (st : KMeta × Int) (h1 : ¬ st.2 < 0)
    (h2 : which &&& bit ≠ 0) (h3 : st.1.attached &&& bit = 0)
    (h4 : (p st.1).2 < 0) :
    kdbus_meta_do bit p which st = p st.1 := by
  unfold kdbus_meta_do
  rw [if_neg h1, if_pos ⟨h2, h3⟩]
  rcases hps : p st.1 with ⟨m1, r1⟩
  rw [hps] at h4
  simp only [] at h4 ⊢
  rw [if_pos h4]

/-! ## Producer result equations used by the scenario claims -/

theorem kdbus_meta_append_cred_ok (env : MetaEnv) (m : KMeta)
    (halloc : ∀ n, env.alloc_fails n = false) :
    (kdbus_meta_append_cred env m).2 = 0 :=
  kdbus_meta_append_record_ok_of_alloc env m _ _ _ _ halloc

theorem kdbus_meta_append_src_names_nil (env : MetaEnv) (m : KMeta)
    (c : KConn) (hnm : c.names_list = []) :
    kdbus_meta_append_src_names env m (some c) = (m, 0) := by
  unfold kdbus_meta_append_src_names
  simp [hnm]

theorem kdbus_meta_append_seclabel_err (env : MetaEnv) (m : KMeta)
    {e : Int} (hsec : env.seclabel = Except.error e)
    (hne : e ≠ -EOPNOTSUPP) :
    kdbus_meta_append_seclabel env m = (m, e) := by
  unfold kdbus_meta_append_seclabel
  rw [hsec]
  simp [hne]

theorem kdbus_meta_append_seclabel_empty (env : MetaEnv) (m : KMeta)
    (hsec : env.seclabel = Except.ok []) :
    kdbus_meta_append_seclabel env m = (m, 0) := by
  unfold kdbus_meta_append_seclabel
  rw [hsec]
  simp

/-! ## Chain preservation through the whole `kdbus_meta_append` -/

theorem kdbus_meta_do_chain (bit : Nat) (p : KMeta → KMeta × Int)
    (which : Nat) (st : KMeta × Int)
    (hC : ∀ m : KMeta, kdbus_chain_ok 0 m.items m.size →
      kdbus_chain_ok 0 (p m).1.items (p m).1.size)
    (h : kdbus_chain_ok 0 st.1.items st.1.size) :
    kdbus_chain_ok 0 (kdbus_meta_do bit p which st).1.items
      (kdbus_meta_do bit p which st).1.size := by
  unfold kdbus_meta_do
  split_ifs with h1 h2
  · exact h
  · rcases hps : p st.1 with ⟨m1, r1⟩
    have := hC st.1 h
    rw [hps] at this
    simp only [] at this ⊢
    split_ifs with h3
    · exact this
    · exact this
  · exact h

theorem kdbus_meta_fold_chain (which : Nat)
    (cats : List (Nat × (KMeta → KMeta × Int)))
    (hC : ∀ bp ∈ cats, ∀ m : KMeta, kdbus_chain_ok 0 m.items m.size →
      kdbus_chain_ok 0 (bp.2 m).1.items (bp.2 m).1.size)
    (st : KMeta × Int) (h : kdbus_chain_ok 0 st.1.items st.1.size) :
    kdbus_chain_ok 0
      (cats.foldl (fun st bp => kdbus_meta_do bp.1 bp.2 which st)
        st).1.items
      (cats.foldl (fun st bp => kdbus_meta_do bp.1 bp.2 which st)
        st).1.size := by
  induction cats generalizing st with
  | nil => exact h
  | cons bp rest ih =>
    simp only [List.foldl_cons]
    exact ih (fun q hq => hC q (List.mem_cons_of_mem bp hq)) _
      (kdbus_meta_do_chain bp.1 bp.2 which st
        (hC bp (List.mem_cons_self bp rest)) h)

theorem kdbus_meta_append_chain (env : MetaEnv) (meta : KMeta)
    (conn : Option KConn) (which : Nat)
    (h : kdbus_chain_ok 0 meta.items meta.size) :
    kdbus_chain_ok 0 (kdbus_meta_append env meta conn which).1.items
      (kdbus_meta_append env meta conn which).1.size := by
  rcases conn with _ | c
  · exact h
  · simp only [kdbus_meta_append]
    split_ifs with h0
    · exact h
    · exact kdbus_meta_fold_chain which _
        (fun bp hbp m hm => (kdbus_meta_categories_spec env (some c)
          bp hbp m).2 hm) (meta, 0) h

/-- Any snapshot reachable from a fresh one by a sequence of
`kdbus_meta_append` calls (arbitrary environments, connections and
category masks per call). -/
def kdbus_meta_runs (steps : List (MetaEnv × Option KConn × Nat)) : KMeta :=
  steps.foldl
    (fun m s => (kdbus_meta_append s.1 m s.2.1 s.2.2).1) kdbus_meta_init

theorem kdbus_meta_runs_chain (steps : List (MetaEnv × Option KConn × Nat)) :
    kdbus_chain_ok 0 (kdbus_meta_runs steps).items
      (kdbus_meta_runs steps).size := by
  suffices hgen : ∀ m : KMeta, kdbus_chain_ok 0 m.items m.size →
      kdbus_chain_ok 0
        (steps.foldl (fun m s => (kdbus_meta_append s.1 m s.2.1 s.2.2).1)
          m).items
        (steps.foldl (fun m s => (kdbus_meta_append s.1 m s.2.1 s.2.2).1)
          m).size by
    exact hgen kdbus_meta_init rfl
  induction steps with
  | nil => intro m hm; exact hm
  | cons s rest ih =>
    intro m hm
    simp only [List.foldl_cons]
    exact ih _ (kdbus_meta_append_chain s.1 m s.2.1 s.2.2 hm)

/-! Concrete metadata environment and connections for witnesses and
counterexamples. -/

def kdbus_env0 : MetaEnv :=
  { alloc_fails := fun _ => false
    monotonic_ns := 11, realtime_ns := 22
    cred_uid := 1000, cred_gid := 1000, cred_pid := 7, cred_tid := 7,
    cred_starttime := 99
    comm_group_leader := [65], comm_current := [66]
    exe_path_present := false, exe_page_fails := false
    exe_dpath := Except.error ()
    cmdline_page_fails := false, cmdline := none
    cap_inh := (0, 0), cap_prm := (0, 0), cap_eff := (0, 0), cap_bset := (0, 0)
    cgroup_page_fails := false, cgroup := Except.ok [67]
    audit_loginuid := 1, audit_sessionid := 2
    seclabel := Except.error (-EOPNOTSUPP) }

/-- Like `kdbus_env0`, but the security module fails hard. -/
def kdbus_env_secfail : MetaEnv :=
  { kdbus_env0 with seclabel := Except.error (-EPERM) }

/-- Like `kdbus_env0`, but the security module reports an empty label. -/
def kdbus_env_secempty : MetaEnv :=
  { kdbus_env0 with seclabel := Except.ok [] }

/-- A connection owning zero names. -/
def kdbus_conn_zero : KConn :=
  { cred := kdbus_cred0, privileged := false, names_list := [] }

def kdbus_steps0 : List (MetaEnv × Option KConn × Nat) :=
  [(kdbus_env0, some kdbus_conn_zero,
    KDBUS_ATTACH_CREDS ||| KDBUS_ATTACH_NAMES)]

theorem kdbus_meta_categories_fst (env : MetaEnv) (conn : Option KConn) :
    (kdbus_meta_categories env conn).map Prod.fst =
      [KDBUS_ATTACH_TIMESTAMP, KDBUS_ATTACH_CREDS, KDBUS_ATTACH_NAMES,
       KDBUS_ATTACH_COMM, KDBUS_ATTACH_EXE, KDBUS_ATTACH_CMDLINE,
       KDBUS_ATTACH_CAPS, KDBUS_ATTACH_CGROUP, KDBUS_ATTACH_AUDIT,
       KDBUS_ATTACH_SECLABEL] := rfl

/-! ## Claim theorems: metadata snapshots -/

/-- C7: every snapshot reachable by appends has a well-formed blob: the
items chain from offset 0, each item's slot is exactly `KDBUS_ALIGN8` of
its declared size (`kdbus_chain_ok`), so every item offset is a multiple of
8, each slot is a multiple of 8 and ≥ the declared size, and the logical
size (where the walk ends) is a multiple of 8. -/
theorem C7_alignment (steps : List (MetaEnv × Option KConn × Nat)) :
    kdbus_chain_ok 0 (kdbus_meta_runs steps).items
      (kdbus_meta_runs steps).size ∧
    8 ∣ (kdbus_meta_runs steps).size ∧
    (∀ it ∈ (kdbus_meta_runs steps).items,
      8 ∣ it.off ∧ it.isize ≤ KDBUS_ALIGN8 it.isize ∧
        8 ∣ KDBUS_ALIGN8 it.isize) := by
  have h := kdbus_meta_runs_chain steps
  exact ⟨h, kdbus_chain_ok_dvd h (dvd_zero 8),
    fun it hit => ⟨kdbus_chain_ok_offsets h (dvd_zero 8) it hit,
      le_align8 _, align8_dvd _⟩⟩

theorem C7_alignment_witness :
    8 ∣ (kdbus_meta_runs kdbus_steps0).size ∧
    8 ∣ (⟨0, KDBUS_ITEM_CREDS, 56⟩ : MetaItemInfo).off ∧
    (⟨0, KDBUS_ITEM_CREDS, 56⟩ : MetaItemInfo).isize ≤
      KDBUS_ALIGN8 (⟨0, KDBUS_ITEM_CREDS, 56⟩ : MetaItemInfo).isize :=
  ⟨(C7_alignment kdbus_steps0).2.1,
   ((C7_alignment kdbus_steps0).2.2 ⟨0, KDBUS_ITEM_CREDS, 56⟩
      (by decide)).1,
   ((C7_alignment kdbus_steps0).2.2 ⟨0, KDBUS_ITEM_CREDS, 56⟩
      (by decide)).2.1⟩

/-- C5: appending the same category mask twice is idempotent.  If the first
`kdbus_meta_append` call did not fail, the second call with the same mask
changes nothing — same buffer bytes, same logical size, same attach mask
(the whole `kdbus_meta` state is untouched) — and returns 0.  In
particular, a call whose mask is already fully attached is a no-op. -/
theorem C5_append_idempotent (env env2 : MetaEnv) (m : KMeta)
    (conn : Option KConn) (which : Nat)
    (h : 0 ≤ (kdbus_meta_append env m conn which).2) :
    kdbus_meta_append env2 (kdbus_meta_append env m conn which).1 conn which
      = ((kdbus_meta_append env m conn which).1, 0) := by
  rcases conn with _ | c
  · rfl
  · by_cases h0 : which &&& m.attached = which
    · have hfirst : kdbus_meta_append env m (some c) which = (m, 0) := by
        simp only [kdbus_meta_append]
        rw [if_pos h0]
      rw [hfirst]
      simp only [kdbus_meta_append]
      rw [if_pos h0]
    · have hfirst : kdbus_meta_append env m (some c) which =
          (kdbus_meta_categories env (some c)).foldl
            (fun st bp => kdbus_meta_do bp.1 bp.2 which st) (m, 0) := by
        simp only [kdbus_meta_append]
        rw [if_neg h0]
      rw [hfirst] at h ⊢
      have hok : ¬ ((kdbus_meta_categories env (some c)).foldl
          (fun st bp => kdbus_meta_do bp.1 bp.2 which st) (m, 0)).2 < 0 :=
        not_lt.mpr h
      have hatt : ∀ bp ∈ kdbus_meta_categories env2 (some c),
          which &&& bp.1 ≠ 0 →
          ((kdbus_meta_categories env (some c)).foldl
            (fun st bp => kdbus_meta_do bp.1 bp.2 which st)
            (m, 0)).1.attached &&& bp.1 ≠ 0 := by
        intro bp hbp hreq
        have hmem : bp.1 ∈ (kdbus_meta_categories env2 (some c)).map
            Prod.fst := List.mem_map_of_mem Prod.fst hbp
        rw [kdbus_meta_categories_fst env2 (some c),
          ← kdbus_meta_categories_fst env (some c)] at hmem
        obtain ⟨bq, hbq, hfst⟩ := List.mem_map.mp hmem
        rw [← hfst] at hreq ⊢
        exact kdbus_meta_fold_success_bits which _
          (fun q hq m2 => (kdbus_meta_categories_spec env (some c) q hq
            m2).1)
          (kdbus_meta_categories_bits env (some c)) (m, 0) hok bq hbq hreq
      simp only [kdbus_meta_append]
      by_cases h1 : which &&& ((kdbus_meta_categories env (some c)).foldl
          (fun st bp => kdbus_meta_do bp.1 bp.2 which st)
          (m, 0)).1.attached = which
      · rw [if_pos h1]
      · rw [if_neg h1]
        exact kdbus_meta_fold_skip which _ _
          (fun bp hbp hand => hatt bp hbp hand.1 hand.2)

theorem C5_append_idempotent_witness :
    kdbus_meta_append kdbus_env0
        (kdbus_meta_append kdbus_env0 kdbus_meta_init (some kdbus_conn_zero)
          (KDBUS_ATTACH_CREDS ||| KDBUS_ATTACH_NAMES)).1
        (some kdbus_conn_zero)
        (KDBUS_ATTACH_CREDS ||| KDBUS_ATTACH_NAMES) =
      ((kdbus_meta_append kdbus_env0 kdbus_meta_init (some kdbus_conn_zero)
          (KDBUS_ATTACH_CREDS ||| KDBUS_ATTACH_NAMES)).1, 0) :=
  C5_append_idempotent kdbus_env0 kdbus_env0 kdbus_meta_init
    (some kdbus_conn_zero) (KDBUS_ATTACH_CREDS ||| KDBUS_ATTACH_NAMES)
    (by decide)

/-- C2 (amended): requesting {CREDS, NAMES} on a fresh snapshot for a
connection owning zero names succeeds, yields a blob containing exactly one
CREDS record and no NAMES record — but the NAMES bit IS set in the attached
mask (the code marks the category attached after the producer's silent
skip), contrary to the claim's "remains unset". -/
theorem C2_zero_names_blob (env : MetaEnv) (c : KConn)
    (halloc : ∀ n, env.alloc_fails n = false) (hnm : c.names_list = []) :
    (kdbus_meta_append env kdbus_meta_init (some c)
      (KDBUS_ATTACH_CREDS ||| KDBUS_ATTACH_NAMES)).2 = 0 ∧
    (kdbus_meta_append env kdbus_meta_init (some c)
      (KDBUS_ATTACH_CREDS ||| KDBUS_ATTACH_NAMES)).1.items.map
        MetaItemInfo.itype = [KDBUS_ITEM_CREDS] ∧
    (kdbus_meta_append env kdbus_meta_init (some c)
      (KDBUS_ATTACH_CREDS ||| KDBUS_ATTACH_NAMES)).1.attached =
      KDBUS_ATTACH_CREDS ||| KDBUS_ATTACH_NAMES ∧
    (kdbus_meta_append env kdbus_meta_init (some c)
      (KDBUS_ATTACH_CREDS ||| KDBUS_ATTACH_NAMES)).1.attached &&&
      KDBUS_ATTACH_NAMES ≠ 0 := by
  have hcr0 : (kdbus_meta_append_cred env kdbus_meta_init).2 = 0 :=
    kdbus_meta_append_cred_ok env kdbus_meta_init halloc
  have hcrat : (kdbus_meta_append_cred env kdbus_meta_init).1.attached = 0 :=
    kdbus_meta_append_cred_frame env kdbus_meta_init
  have hts : kdbus_meta_do KDBUS_ATTACH_TIMESTAMP
      (kdbus_meta_append_timestamp env)
      (KDBUS_ATTACH_CREDS ||| KDBUS_ATTACH_NAMES) (kdbus_meta_init, 0) =
      (kdbus_meta_init, 0) :=
    kdbus_meta_do_skip_bit _ _ _ _ (by decide)
  have hcr : kdbus_meta_do KDBUS_ATTACH_CREDS (kdbus_meta_append_cred env)
      (KDBUS_ATTACH_CREDS ||| KDBUS_ATTACH_NAMES) (kdbus_meta_init, 0) =
      ({ (kdbus_meta_append_cred env kdbus_meta_init).1 with
          attached := (kdbus_meta_append_cred env kdbus_meta_init).1.attached
            ||| KDBUS_ATTACH_CREDS },
        (kdbus_meta_append_cred env kdbus_meta_init).2) :=
    kdbus_meta_do_run _ _ _ _ (by norm_num) (by decide) (by decide)
      (by rw [hcr0]; norm_num)
  have hnm2 : kdbus_meta_append_src_names env
      ({ (kdbus_meta_append_cred env kdbus_meta_init).1 with
          attached := (kdbus_meta_append_cred env kdbus_meta_init).1.attached
            ||| KDBUS_ATTACH_CREDS }) (some c) =
      ({ (kdbus_meta_append_cred env kdbus_meta_init).1 with
          attached := (kdbus_meta_append_cred env kdbus_meta_init).1.attached
            ||| KDBUS_ATTACH_CREDS }, 0) :=
    kdbus_meta_append_src_names_nil env _ c hnm
  have hna : kdbus_meta_do KDBUS_ATTACH_NAMES
      (fun m => kdbus_meta_append_src_names env m (some c))
      (KDBUS_ATTACH_CREDS ||| KDBUS_ATTACH_NAMES)
      (({ (kdbus_meta_append_cred env kdbus_meta_init).1 with
          attached := (kdbus_meta_append_cred env kdbus_meta_init).1.attached
            ||| KDBUS_ATTACH_CREDS }), 0) =
      (({ (kdbus_meta_append_cred env kdbus_meta_init).1 with
          attached := ((kdbus_meta_append_cred env kdbus_meta_init).1.attached
            ||| KDBUS_ATTACH_CREDS) ||| KDBUS_ATTACH_NAMES }), 0) := by
    rw [kdbus_meta_do_run _ _ _ _ (by norm_num) (by decide)
      (by simp only []; rw [hcrat]; decide) (by rw [hnm2]; norm_num)]
    rw [hnm2]
  have hcritems : (kdbus_meta_append_cred env kdbus_meta_init).1.items =
      [⟨0, KDBUS_ITEM_CREDS, KDBUS_ITEM_SIZE sizeof_kdbus_creds⟩] := by
    have hspec := (kdbus_meta_append_record_spec env kdbus_meta_init
      (KDBUS_ITEM_SIZE sizeof_kdbus_creds) KDBUS_ITEM_CREDS
      (KDBUS_ITEM_SIZE sizeof_kdbus_creds)
      (u64le env.cred_uid ++ u64le env.cred_gid ++ u64le env.cred_pid ++
        u64le env.cred_tid ++ u64le env.cred_starttime)).2.2.1
    simpa using (hspec hcr0).1
  have happ : kdbus_meta_append env kdbus_meta_init (some c)
      (KDBUS_ATTACH_CREDS ||| KDBUS_ATTACH_NAMES) =
      (({ (kdbus_meta_append_cred env kdbus_meta_init).1 with
          attached := ((kdbus_meta_append_cred env kdbus_meta_init).1.attached
            ||| KDBUS_ATTACH_CREDS) ||| KDBUS_ATTACH_NAMES }), 0) := by
    simp only [kdbus_meta_append]
    rw [if_neg (by decide)]
    simp only [kdbus_meta_categories, List.foldl_cons, List.foldl_nil]
    rw [hts, hcr, hcr0, hna]
    rw [kdbus_meta_do_skip_bit KDBUS_ATTACH_COMM (kdbus_meta_append_comm env)
      (KDBUS_ATTACH_CREDS ||| KDBUS_ATTACH_NAMES) _ (by decide)]
    rw [kdbus_meta_do_skip_bit KDBUS_ATTACH_EXE (kdbus_meta_append_exe env)
      (KDBUS_ATTACH_CREDS ||| KDBUS_ATTACH_NAMES) _ (by decide)]
    rw [kdbus_meta_do_skip_bit KDBUS_ATTACH_CMDLINE
      (kdbus_meta_append_cmdline env)
      (KDBUS_ATTACH_CREDS ||| KDBUS_ATTACH_NAMES) _ (by decide)]
    rw [kdbus_meta_do_skip_bit KDBUS_ATTACH_CAPS (kdbus_meta_append_caps env)
      (KDBUS_ATTACH_CREDS ||| KDBUS_ATTACH_NAMES) _ (by decide)]
    rw [kdbus_meta_do_skip_bit KDBUS_ATTACH_CGROUP
      (kdbus_meta_append_cgroup env)
      (KDBUS_ATTACH_CREDS ||| KDBUS_ATTACH_NAMES) _ (by decide)]
    rw [kdbus_meta_do_skip_bit KDBUS_ATTACH_AUDIT
      (kdbus_meta_append_audit env)
      (KDBUS_ATTACH_CREDS ||| KDBUS_ATTACH_NAMES) _ (by decide)]
    rw [kdbus_meta_do_skip_bit KDBUS_ATTACH_SECLABEL
      (kdbus_meta_append_seclabel env)
      (KDBUS_ATTACH_CREDS ||| KDBUS_ATTACH_NAMES) _ (by decide)]
  refine ⟨by rw [happ], ?_, ?_, ?_⟩
  · rw [happ]
    simp only []
    rw [hcritems]
    rfl
  · rw [happ]
    simp only []
    rw [hcrat]
    decide
  · rw [happ]
    simp only []
    rw [hcrat]
    decide

/-- C2 counterexample: zero owned names, mask {CREDS, NAMES} — the claim
says the NAMES bit is left unset in the attached mask; the code sets it
(the whole mask becomes CREDS|NAMES). -/
theorem C2_counterexample :
    kdbus_conn_zero.names_list = [] ∧
    (kdbus_meta_append kdbus_env0 kdbus_meta_init (some kdbus_conn_zero)
      (KDBUS_ATTACH_CREDS ||| KDBUS_ATTACH_NAMES)).1.attached &&&
      KDBUS_ATTACH_NAMES ≠ 0 := by
  constructor
  · rfl
  · decide

theorem C2_zero_names_blob_witness :
    (kdbus_meta_append kdbus_env0 kdbus_meta_init (some kdbus_conn_zero)
      (KDBUS_ATTACH_CREDS ||| KDBUS_ATTACH_NAMES)).1.items.map
        MetaItemInfo.itype = [KDBUS_ITEM_CREDS] ∧
    (kdbus_meta_append kdbus_env0 kdbus_meta_init (some kdbus_conn_zero)
      (KDBUS_ATTACH_CREDS ||| KDBUS_ATTACH_NAMES)).1.attached =
      KDBUS_ATTACH_CREDS ||| KDBUS_ATTACH_NAMES :=
  ⟨(C2_zero_names_blob kdbus_env0 kdbus_conn_zero (fun _ => rfl) rfl).2.1,
   (C2_zero_names_blob kdbus_env0 kdbus_conn_zero (fun _ => rfl) rfl).2.2.1⟩

/-- C6: a category producer failing partway through `kdbus_meta_append`
(here: CREDS succeeds, then the security module fails hard with a negative
error other than `-EOPNOTSUPP`) aborts the whole call with that error; the
CREDS category completed before the failure keeps its bit in the attached
mask (SECLABEL's stays clear); and a retry of the same call skips the
already-attached CREDS category — the retry changes nothing but the
SECLABEL attach bit and returns 0. -/
theorem C6_producer_failure (env env2 : MetaEnv) (m : KMeta) (c : KConn)
    (e : Int) (halloc : ∀ n, env.alloc_fails n = false)
    (hsec : env.seclabel = Except.error e) (he : e < 0)
    (hne : e ≠ -EOPNOTSUPP)
    (hmask : m.attached &&&
      (KDBUS_ATTACH_CREDS ||| KDBUS_ATTACH_SECLABEL) = 0)
    (hsec2 : env2.seclabel = Except.ok []) :
    (kdbus_meta_append env m (some c)
      (KDBUS_ATTACH_CREDS ||| KDBUS_ATTACH_SECLABEL)).2 = e ∧
    (kdbus_meta_append env m (some c)
      (KDBUS_ATTACH_CREDS ||| KDBUS_ATTACH_SECLABEL)).1.attached =
      m.attached ||| KDBUS_ATTACH_CREDS ∧
    kdbus_meta_append env2
        (kdbus_meta_append env m (some c)
          (KDBUS_ATTACH_CREDS ||| KDBUS_ATTACH_SECLABEL)).1 (some c)
        (KDBUS_ATTACH_CREDS ||| KDBUS_ATTACH_SECLABEL) =
      ({ (kdbus_meta_append env m (some c)
            (KDBUS_ATTACH_CREDS ||| KDBUS_ATTACH_SECLABEL)).1 with
          attached := (kdbus_meta_append env m (some c)
            (KDBUS_ATTACH_CREDS ||| KDBUS_ATTACH_SECLABEL)).1.attached |||
              KDBUS_ATTACH_SECLABEL }, 0) := by
  have hac : m.attached &&& KDBUS_ATTACH_CREDS = 0 :=
    land_zero_of_subset hmask (by decide)
  have has : m.attached &&& KDBUS_ATTACH_SECLABEL = 0 :=
    land_zero_of_subset hmask (by decide)
  have hcr0 : (kdbus_meta_append_cred env m).2 = 0 :=
    kdbus_meta_append_cred_ok env m halloc
  have hAat : (kdbus_meta_append_cred env m).1.attached = m.attached :=
    kdbus_meta_append_cred_frame env m
  have hneq : ¬ ((KDBUS_ATTACH_CREDS ||| KDBUS_ATTACH_SECLABEL) &&&
      m.attached = KDBUS_ATTACH_CREDS ||| KDBUS_ATTACH_SECLABEL) := by
    intro heq
    have h2 := congrArg (fun x => x &&& KDBUS_ATTACH_CREDS) heq
    simp only [Nat.land_assoc, hac] at h2
    exact absurd h2 (by decide)
  have hts : kdbus_meta_do KDBUS_ATTACH_TIMESTAMP
      (kdbus_meta_append_timestamp env)
      (KDBUS_ATTACH_CREDS ||| KDBUS_ATTACH_SECLABEL) (m, 0) = (m, 0) :=
    kdbus_meta_do_skip_bit _ _ _ _ (by decide)
  have hcr : kdbus_meta_do KDBUS_ATTACH_CREDS (kdbus_meta_append_cred env)
      (KDBUS_ATTACH_CREDS ||| KDBUS_ATTACH_SECLABEL) (m, 0) =
      ({ (kdbus_meta_append_cred env m).1 with
          attached := (kdbus_meta_append_cred env m).1.attached |||
            KDBUS_ATTACH_CREDS },
        (kdbus_meta_append_cred env m).2) :=
    kdbus_meta_do_run _ _ _ _ (by norm_num) (by decide) hac
      (by rw [hcr0]; norm_num)
  have hat256 : ({ (kdbus_meta_append_cred env m).1 with
      attached := (kdbus_meta_append_cred env m).1.attached |||
        KDBUS_ATTACH_CREDS } : KMeta).attached &&&
      KDBUS_ATTACH_SECLABEL = 0 := by
    simp only []
    rw [hAat, nat_lor_land, has]
    decide
  have hsecp : kdbus_meta_append_seclabel env
      ({ (kdbus_meta_append_cred env m).1 with
          attached := (kdbus_meta_append_cred env m).1.attached |||
            KDBUS_ATTACH_CREDS }) =
      (({ (kdbus_meta_append_cred env m).1 with
          attached := (kdbus_meta_append_cred env m).1.attached |||
            KDBUS_ATTACH_CREDS }), e) :=
    kdbus_meta_append_seclabel_err env _ hsec hne
  have hsecstep : kdbus_meta_do KDBUS_ATTACH_SECLABEL
      (kdbus_meta_append_seclabel env)
      (KDBUS_ATTACH_CREDS ||| KDBUS_ATTACH_SECLABEL)
      (({ (kdbus_meta_append_cred env m).1 with
          attached := (kdbus_meta_append_cred env m).1.attached |||
            KDBUS_ATTACH_CREDS }), 0) =
      (({ (kdbus_meta_append_cred env m).1 with
          attached := (kdbus_meta_append_cred env m).1.attached |||
            KDBUS_ATTACH_CREDS }), e) := by
    rw [kdbus_meta_do_run_err _ _ _ _ (by norm_num) (by decide) hat256
      (by rw [hsecp]; exact he)]
    rw [hsecp]
  have happ : kdbus_meta_append env m (some c)
      (KDBUS_ATTACH_CREDS ||| KDBUS_ATTACH_SECLABEL) =
      (({ (kdbus_meta_append_cred env m).1 with
          attached := (kdbus_meta_append_cred env m).1.attached |||
            KDBUS_ATTACH_CREDS }), e) := by
    simp only [kdbus_meta_append]
    rw [if_neg hneq]
    simp only [kdbus_meta_categories, List.foldl_cons, List.foldl_nil]
    rw [hts, hcr, hcr0]
    rw [kdbus_meta_do_skip_bit KDBUS_ATTACH_NAMES
      (fun m2 => kdbus_meta_append_src_names env m2 (some c))
      (KDBUS_ATTACH_CREDS ||| KDBUS_ATTACH_SECLABEL) _ (by decide)]
    rw [kdbus_meta_do_skip_bit KDBUS_ATTACH_COMM (kdbus_meta_append_comm env)
      (KDBUS_ATTACH_CREDS ||| KDBUS_ATTACH_SECLABEL) _ (by decide)]
    rw [kdbus_meta_do_skip_bit KDBUS_ATTACH_EXE (kdbus_meta_append_exe env)
      (KDBUS_ATTACH_CREDS ||| KDBUS_ATTACH_SECLABEL) _ (by decide)]
    rw [kdbus_meta_do_skip_bit KDBUS_ATTACH_CMDLINE
      (kdbus_meta_append_cmdline env)
      (KDBUS_ATTACH_CREDS ||| KDBUS_ATTACH_SECLABEL) _ (by decide)]
    rw [kdbus_meta_do_skip_bit KDBUS_ATTACH_CAPS (kdbus_meta_append_caps env)
      (KDBUS_ATTACH_CREDS ||| KDBUS_ATTACH_SECLABEL) _ (by decide)]
    rw [kdbus_meta_do_skip_bit KDBUS_ATTACH_CGROUP
      (kdbus_meta_append_cgroup env)
      (KDBUS_ATTACH_CREDS ||| KDBUS_ATTACH_SECLABEL) _ (by decide)]
    rw [kdbus_meta_do_skip_bit KDBUS_ATTACH_AUDIT
      (kdbus_meta_append_audit env)
      (KDBUS_ATTACH_CREDS ||| KDBUS_ATTACH_SECLABEL) _ (by decide)]
    rw [hsecstep]
  refine ⟨by rw [happ], by rw [happ]; simp only []; rw [hAat], ?_⟩
  rw [happ]
  simp only []
  have hat2c : ({ (kdbus_meta_append_cred env m).1 with
      attached := (kdbus_meta_append_cred env m).1.attached |||
        KDBUS_ATTACH_CREDS } : KMeta).attached &&&
      KDBUS_ATTACH_CREDS ≠ 0 := by
    simp only []
    rw [hAat, nat_lor_land, hac]
    decide
  have hneq2 : ¬ ((KDBUS_ATTACH_CREDS ||| KDBUS_ATTACH_SECLABEL) &&&
      ({ (kdbus_meta_append_cred env m).1 with
          attached := (kdbus_meta_append_cred env m).1.attached |||
            KDBUS_ATTACH_CREDS } : KMeta).attached =
      KDBUS_ATTACH_CREDS ||| KDBUS_ATTACH_SECLABEL) := by
    intro heq
    have h2 := congrArg (fun x => x &&& KDBUS_ATTACH_SECLABEL) heq
    simp only [Nat.land_assoc, hat256] at h2
    exact absurd h2 (by decide)
  have hsecp2 : kdbus_meta_append_seclabel env2
      ({ (kdbus_meta_append_cred env m).1 with
          attached := (kdbus_meta_append_cred env m).1.attached |||
            KDBUS_ATTACH_CREDS }) =
      (({ (kdbus_meta_append_cred env m).1 with
          attached := (kdbus_meta_append_cred env m).1.attached |||
            KDBUS_ATTACH_CREDS }), 0) :=
    kdbus_meta_append_seclabel_empty env2 _ hsec2
  have hsec2step : kdbus_meta_do KDBUS_ATTACH_SECLABEL
      (kdbus_meta_append_seclabel env2)
      (KDBUS_ATTACH_CREDS ||| KDBUS_ATTACH_SECLABEL)
      (({ (kdbus_meta_append_cred env m).1 with
          attached := (kdbus_meta_append_cred env m).1.attached |||
            KDBUS_ATTACH_CREDS }), 0) =
      (({ (kdbus_meta_append_cred env m).1 with
          attached := ((kdbus_meta_append_cred env m).1.attached |||
            KDBUS_ATTACH_CREDS) ||| KDBUS_ATTACH_SECLABEL }), 0) := by
    rw [kdbus_meta_do_run _ _ _ _ (by norm_num) (by decide) hat256
      (by rw [hsecp2]; norm_num)]
    rw [hsecp2]
  simp only [kdbus_meta_append]
  rw [if_neg hneq2]
  simp only [kdbus_meta_categories, List.foldl_cons, List.foldl_nil]
  rw [kdbus_meta_do_skip_bit KDBUS_ATTACH_TIMESTAMP
    (kdbus_meta_append_timestamp env2)
    (KDBUS_ATTACH_CREDS ||| KDBUS_ATTACH_SECLABEL) _ (by decide)]
  rw [kdbus_meta_do_skip_attached KDBUS_ATTACH_CREDS
    (kdbus_meta_append_cred env2)
    (KDBUS_ATTACH_CREDS ||| KDBUS_ATTACH_SECLABEL) _ hat2c]
  rw [kdbus_meta_do_skip_bit KDBUS_ATTACH_NAMES
    (fun m2 => kdbus_meta_append_src_names env2 m2 (some c))
    (KDBUS_ATTACH_CREDS ||| KDBUS_ATTACH_SECLABEL) _ (by decide)]
  rw [kdbus_meta_do_skip_bit KDBUS_ATTACH_COMM (kdbus_meta_append_comm env2)
    (KDBUS_ATTACH_CREDS ||| KDBUS_ATTACH_SECLABEL) _ (by decide)]
  rw [kdbus_meta_do_skip_bit KDBUS_ATTACH_EXE (kdbus_meta_append_exe env2)
    (KDBUS_ATTACH_CREDS ||| KDBUS_ATTACH_SECLABEL) _ (by decide)]
  rw [kdbus_meta_do_skip_bit KDBUS_ATTACH_CMDLINE
    (kdbus_meta_append_cmdline env2)
    (KDBUS_ATTACH_CREDS ||| KDBUS_ATTACH_SECLABEL) _ (by decide)]
  rw [kdbus_meta_do_skip_bit KDBUS_ATTACH_CAPS (kdbus_meta_append_caps env2)
    (KDBUS_ATTACH_CREDS ||| KDBUS_ATTACH_SECLABEL) _ (by decide)]
  rw [kdbus_meta_do_skip_bit KDBUS_ATTACH_CGROUP
    (kdbus_meta_append_cgroup env2)
    (KDBUS_ATTACH_CREDS ||| KDBUS_ATTACH_SECLABEL) _ (by decide)]
  rw [kdbus_meta_do_skip_bit KDBUS_ATTACH_AUDIT
    (kdbus_meta_append_audit env2)
    (KDBUS_ATTACH_CREDS ||| KDBUS_ATTACH_SECLABEL) _ (by decide)]
  rw [hsec2step]

theorem C6_producer_failure_witness :
    (kdbus_meta_append kdbus_env_secfail kdbus_meta_init
      (some kdbus_conn_zero)
      (KDBUS_ATTACH_CREDS ||| KDBUS_ATTACH_SECLABEL)).2 = -EPERM ∧
    (kdbus_meta_append kdbus_env_secfail kdbus_meta_init
      (some kdbus_conn_zero)
      (KDBUS_ATTACH_CREDS ||| KDBUS_ATTACH_SECLABEL)).1.attached =
      kdbus_meta_init.attached ||| KDBUS_ATTACH_CREDS :=
  ⟨(C6_producer_failure kdbus_env_secfail kdbus_env_secempty kdbus_meta_init
      kdbus_conn_zero (-EPERM) (fun _ => rfl) rfl (by decide) (by decide)
      (by decide) rfl).1,
   (C6_producer_failure kdbus_env_secfail kdbus_env_secempty kdbus_meta_init
      kdbus_conn_zero (-EPERM) (fun _ => rfl) rfl (by decide) (by decide)
      (by decide) rfl).2.1⟩

theorem kdbus_meta_append_item_grow_fits (env : MetaEnv) (m : KMeta)
    (extra : Nat) (hfit : m.size + KDBUS_ALIGN8 extra ≤ m.allocated_size) :
    kdbus_meta_append_item_grow env m extra =
      ({ m with size := m.size + KDBUS_ALIGN8 extra }, Except.ok m.size) := by
  unfold kdbus_meta_append_item_grow
  rw [if_neg (by omega)]

theorem kdbus_meta_append_item_grow_realloc (env : MetaEnv) (m : KMeta)
    (extra : Nat) (hfit : m.allocated_size < m.size + KDBUS_ALIGN8 extra)
    (halloc : env.alloc_fails m.allocs = false) :
    kdbus_meta_append_item_grow env m extra =
      ({ m with
          data := some (m.data.getD [] ++
              List.replicate (roundup_pow_of_two
                  (m.size + KDBUS_ALIGN8 extra) - m.allocated_size) 0),
          allocated_size := roundup_pow_of_two (m.size + KDBUS_ALIGN8 extra),
          allocs := m.allocs + 1, reallocs := m.reallocs + 1,
          size := m.size + KDBUS_ALIGN8 extra }, Except.ok m.size) := by
  unfold kdbus_meta_append_item_grow
  rw [if_pos (by omega), if_neg (by rw [halloc]; simp)]

theorem kdbus_meta_append_item_first (env : MetaEnv) (m : KMeta)
    (extra : Nat) (hd : m.data = none) (hsz : m.size = 0)
    (halloc : env.alloc_fails m.allocs = false) :
    kdbus_meta_append_item env m extra =
      ({ m with
          data := some (List.replicate
              (roundup_pow_of_two (256 + KDBUS_ALIGN8 extra)) 0),
          allocated_size := roundup_pow_of_two (256 + KDBUS_ALIGN8 extra),
          allocs := m.allocs + 1,
          size := m.size + KDBUS_ALIGN8 extra }, Except.ok m.size) := by
  unfold kdbus_meta_append_item
  rw [hd]
  simp only []
  rw [halloc]
  simp only [Bool.false_eq_true, if_false]
  rw [kdbus_meta_append_item_grow_fits env _ extra
    (by
      simp only [hsz]
      have := le_roundup_pow_of_two (256 + KDBUS_ALIGN8 extra)
      omega)]

/-- The capacity/size invariant maintained by `kdbus_meta_append_item`
under a non-failing allocator: a missing buffer is the pristine state; an
existing buffer has power-of-two capacity ≥ 256 that at least doubles per
reallocation and never exceeds twice (256 + logical size). -/
def KMetaSizeInv (m : KMeta) : Prop :=
  (m.data = none → m.allocated_size = 0 ∧ m.size = 0 ∧ m.reallocs = 0) ∧
  (m.data ≠ none → 256 ≤ m.allocated_size ∧
    (∃ k, m.allocated_size = 2 ^ k) ∧
    256 * 2 ^ m.reallocs ≤ m.allocated_size ∧
    m.allocated_size ≤ 2 * (256 + m.size))

theorem kdbus_meta_append_item_inv (env : MetaEnv) (m : KMeta) (extra : Nat)
    (halloc : ∀ n, env.alloc_fails n = false) (hI : KMetaSizeInv m) :
    KMetaSizeInv (kdbus_meta_append_item env m extra).1 ∧
    (kdbus_meta_append_item env m extra).1.size =
      m.size + KDBUS_ALIGN8 extra := by
  rcases hd : m.data with _ | buf
  · obtain ⟨ha0, hs0, hr0⟩ := hI.1 hd
    rw [kdbus_meta_append_item_first env m extra hd hs0 (halloc m.allocs)]
    have hle := le_roundup_pow_of_two (256 + KDBUS_ALIGN8 extra)
    have hup := roundup_pow_of_two_le_two_mul (256 + KDBUS_ALIGN8 extra)
      (by omega)
    constructor
    · constructor
      · intro hc
        exact absurd hc (by simp)
      · intro _
        simp only []
        refine ⟨by omega, roundup_pow_of_two_is_pow _, ?_, ?_⟩
        · rw [hr0]
          simpa using by omega
        · rw [hs0]
          omega
    · simp only []
  · have hd2 : m.data ≠ none := by rw [hd]; simp
    obtain ⟨h256, ⟨k, hk⟩, hdb, hub⟩ := hI.2 hd2
    have hitem : kdbus_meta_append_item env m extra =
        kdbus_meta_append_item_grow env m extra := by
      unfold kdbus_meta_append_item
      rw [hd]
    rw [hitem]
    by_cases hfit : m.size + KDBUS_ALIGN8 extra ≤ m.allocated_size
    · rw [kdbus_meta_append_item_grow_fits env m extra hfit]
      constructor
      · constructor
        · intro hc
          simp only [] at hc
          exact absurd hc hd2
        · intro _
          simp only []
          exact ⟨h256, ⟨k, hk⟩, hdb, by omega⟩
      · simp only []
    · rw [kdbus_meta_append_item_grow_realloc env m extra (by omega)
        (halloc m.allocs)]
      have hle := le_roundup_pow_of_two (m.size + KDBUS_ALIGN8 extra)
      have hup := roundup_pow_of_two_le_two_mul (m.size + KDBUS_ALIGN8 extra)
        (by omega)
      have hdbl : 2 * m.allocated_size ≤
          roundup_pow_of_two (m.size + KDBUS_ALIGN8 extra) :=
        two_pow_doubling hk (roundup_pow_of_two_is_pow _) (by omega)
      constructor
      · constructor
        · intro hc
          exact absurd hc (by simp)
        · intro _
          simp only []
          refine ⟨by omega, roundup_pow_of_two_is_pow _, ?_, by omega⟩
          rw [pow_succ]
          calc 256 * (2 ^ m.reallocs * 2) = 2 * (256 * 2 ^ m.reallocs) := by
                ring
            _ ≤ 2 * m.allocated_size := by omega
            _ ≤ _ := hdbl
      · simp only []

/-- N sequential single-item reserves starting from a fresh snapshot. -/
def kdbus_meta_append_item_run (env : MetaEnv) (sizes : List Nat) : KMeta :=
  sizes.foldl (fun m s => (kdbus_meta_append_item env m s).1) kdbus_meta_init

theorem kdbus_meta_append_item_fold_inv (env : MetaEnv) (B : Nat)
    (halloc : ∀ n, env.alloc_fails n = false) :
    ∀ (sizes : List Nat) (m : KMeta), (∀ s ∈ sizes, s ≤ B) →
      KMetaSizeInv m →
      KMetaSizeInv (sizes.foldl
        (fun m s => (kdbus_meta_append_item env m s).1) m) ∧
      (sizes.foldl (fun m s => (kdbus_meta_append_item env m s).1) m).size ≤
        m.size + sizes.length * KDBUS_ALIGN8 B := by
  intro sizes
  induction sizes with
  | nil =>
    intro m _ hI
    exact ⟨hI, by simp⟩
  | cons s rest ih =>
    intro m hB hI
    obtain ⟨hI1, hsz⟩ := kdbus_meta_append_item_inv env m s halloc hI
    obtain ⟨hIf, hszf⟩ :=
      ih (kdbus_meta_append_item env m s).1
        (fun q hq => hB q (List.mem_cons_of_mem s hq)) hI1
    refine ⟨by simpa [List.foldl_cons] using hIf, ?_⟩
    simp only [List.foldl_cons, List.length_cons]
    have hsB : KDBUS_ALIGN8 s ≤ KDBUS_ALIGN8 B :=
      align8_mono (hB s (List.mem_cons_self s rest))
    rw [Nat.succ_mul]
    omega

theorem kdbus_init_size_inv : KMetaSizeInv kdbus_meta_init :=
  ⟨fun _ => ⟨rfl, rfl, rfl⟩, fun hc => absurd rfl hc⟩

theorem le_bit_len_of_two_pow_le {r M : Nat} (h : 2 ^ r ≤ M) :
    r ≤ kdbus_bit_len M := by
  by_contra hc
  have h2 := lt_two_pow_bit_len M
  have h4 := Nat.pow_le_pow_right (by omega : 1 ≤ 2)
    (by omega : kdbus_bit_len M ≤ r)
  omega

/-- C8: the growth discipline of the snapshot buffer.
(1) A fresh snapshot has no buffer.  (2) The first reserve allocates
exactly the smallest power of two ≥ 256 + the aligned item size.  (3) A
reserve that fits in the current capacity never reallocates and keeps the
buffer.  (4) A reserve that does not fit reallocates to the smallest power
of two ≥ the required size — at least doubling the power-of-two capacity —
copying all prior bytes and zero-filling the tail beyond the old capacity.
(5) N sequential single-item reserves of size ≤ B from a fresh snapshot
cause at most `kdbus_bit_len (N * KDBUS_ALIGN8 B + 512)` reallocations,
i.e. O(log N) for bounded item size. -/
theorem C8_growth :
    kdbus_meta_init.data = none ∧
    (∀ (env : MetaEnv) (m : KMeta) (extra : Nat), m.data = none →
      m.size = 0 → env.alloc_fails m.allocs = false →
      (kdbus_meta_append_item env m extra).1.allocated_size =
        roundup_pow_of_two (256 + KDBUS_ALIGN8 extra) ∧
      256 + KDBUS_ALIGN8 extra ≤
        (kdbus_meta_append_item env m extra).1.allocated_size ∧
      (∀ k, 256 + KDBUS_ALIGN8 extra ≤ 2 ^ k →
        (kdbus_meta_append_item env m extra).1.allocated_size ≤ 2 ^ k)) ∧
    (∀ (env : MetaEnv) (m : KMeta) (extra : Nat), m.data ≠ none →
      m.size + KDBUS_ALIGN8 extra ≤ m.allocated_size →
      (kdbus_meta_append_item env m extra).1.allocated_size =
        m.allocated_size ∧
      (kdbus_meta_append_item env m extra).1.reallocs = m.reallocs ∧
      (kdbus_meta_append_item env m extra).1.data = m.data) ∧
    (∀ (env : MetaEnv) (m : KMeta) (extra : Nat) (buf : List Nat) (k : Nat),
      m.data = some buf → m.allocated_size = 2 ^ k →
      m.allocated_size < m.size + KDBUS_ALIGN8 extra →
      env.alloc_fails m.allocs = false →
      (kdbus_meta_append_item env m extra).1.allocated_size =
        roundup_pow_of_two (m.size + KDBUS_ALIGN8 extra) ∧
      (∀ j, m.size + KDBUS_ALIGN8 extra ≤ 2 ^ j →
        (kdbus_meta_append_item env m extra).1.allocated_size ≤ 2 ^ j) ∧
      2 * m.allocated_size ≤
        (kdbus_meta_append_item env m extra).1.allocated_size ∧
      (kdbus_meta_append_item env m extra).1.data =
        some (buf ++ List.replicate
          ((kdbus_meta_append_item env m extra).1.allocated_size -
            m.allocated_size) 0) ∧
      (kdbus_meta_append_item env m extra).1.reallocs = m.reallocs + 1) ∧
    (∀ (env : MetaEnv) (sizes : List Nat) (B : Nat),
      (∀ n, env.alloc_fails n = false) → (∀ s ∈ sizes, s ≤ B) →
      (kdbus_meta_append_item_run env sizes).reallocs ≤
        kdbus_bit_len (sizes.length * KDBUS_ALIGN8 B + 512)) := by
  refine ⟨rfl, ?_, ?_, ?_, ?_⟩
  · intro env m extra hd hsz halloc
    rw [kdbus_meta_append_item_first env m extra hd hsz halloc]
    exact ⟨rfl, le_roundup_pow_of_two _, fun k hk => roundup_pow_of_two_min hk⟩
  · intro env m extra hd hfit
    have hitem : kdbus_meta_append_item env m extra =
        kdbus_meta_append_item_grow env m extra := by
      unfold kdbus_meta_append_item
      rcases hdd : m.data with _ | buf
      · exact absurd hdd hd
      · rfl
    rw [hitem, kdbus_meta_append_item_grow_fits env m extra hfit]
    exact ⟨rfl, rfl, rfl⟩
  · intro env m extra buf k hd hk hfit halloc
    have hitem : kdbus_meta_append_item env m extra =
        kdbus_meta_append_item_grow env m extra := by
      unfold kdbus_meta_append_item
      rw [hd]
    rw [hitem, kdbus_meta_append_item_grow_realloc env m extra hfit halloc]
    have hle := le_roundup_pow_of_two (m.size + KDBUS_ALIGN8 extra)
    refine ⟨rfl, fun j hj => roundup_pow_of_two_min hj,
      two_pow_doubling hk (roundup_pow_of_two_is_pow _)
        (lt_of_lt_of_le hfit hle),
      ?_, rfl⟩
    show some (m.data.getD [] ++ _) = _
    rw [hd]
    rfl
  · intro env sizes B halloc hB
    obtain ⟨hInv, hsz⟩ :=
      kdbus_meta_append_item_fold_inv env B halloc sizes kdbus_meta_init
        hB kdbus_init_size_inv
    have hsz2 : (kdbus_meta_append_item_run env sizes).size ≤
        sizes.length * KDBUS_ALIGN8 B := by
      have h0 : kdbus_meta_init.size = 0 := rfl
      simpa [kdbus_meta_append_item_run, h0] using hsz
    by_cases hdn : (kdbus_meta_append_item_run env sizes).data = none
    · have hr0 : (kdbus_meta_append_item_run env sizes).reallocs = 0 :=
        (hInv.1 hdn).2.2
      rw [hr0]
      exact Nat.zero_le _
    · obtain ⟨h256, ⟨k, hk⟩, hdb, hub⟩ := hInv.2 hdn
      have hdb2 : 256 * 2 ^ (kdbus_meta_append_item_run env sizes).reallocs ≤
          (kdbus_meta_append_item_run env sizes).allocated_size := hdb
      have hub2 : (kdbus_meta_append_item_run env sizes).allocated_size ≤
          2 * (256 + (kdbus_meta_append_item_run env sizes).size) := hub
      have h2 : 2 ^ (kdbus_meta_append_item_run env sizes).reallocs ≤
          sizes.length * KDBUS_ALIGN8 B + 512 := by
        omega
      exact le_bit_len_of_two_pow_le h2

theorem C8_growth_witness :
    (kdbus_meta_append_item kdbus_env0 kdbus_meta_init 40).1.allocated_size =
      roundup_pow_of_two (256 + KDBUS_ALIGN8 40) ∧
    (kdbus_meta_append_item_run kdbus_env0 [40, 40, 40]).reallocs ≤
      kdbus_bit_len
        (([40, 40, 40] : List Nat).length * KDBUS_ALIGN8 40 + 512) :=
  ⟨(C8_growth.2.1 kdbus_env0 kdbus_meta_init 40 rfl rfl rfl).1,
   C8_growth.2.2.2.2 kdbus_env0 [40, 40, 40] 40 (fun _ => rfl) (by decide)⟩
